import Mathlib

/-!
Verification of the Medparse metadata reconciliation engine.

Shallow embedding of the Python sources:
  scripts/apply_zotero_metadata.py  (matching cascade, field merge, strict gates)
  scripts/util/provenance.py        (add_patch)
  scripts/dedupe_by_doi.py          (norm_doi, duplicate grouping)
  scripts/ci_gate.py                (metric ceilings)

Python strings are modelled as Lean strings; the character-level
operations (strip, lower, split) are modelled for the ASCII fragment:
Python str.lower performs full Unicode case folding and str.strip removes
all Unicode whitespace, while the model folds only the 26 ASCII capitals
and strips the six ASCII whitespace code points.  All behaviour the
claims exercise lives inside this fragment.
-/

namespace Medparse

/-! ## Python string primitives -/

/-- ASCII whitespace recognised by the model of str.strip and str.split. -/
def isWS (c : Char) : Bool :=
  c.toNat = 32 || c.toNat = 9 || c.toNat = 10 || c.toNat = 11 || c.toNat = 12 || c.toNat = 13

/-- Model of str.lower on one character (ASCII fragment): Char.toLower
folds the range 65..90 to 97..122 and fixes everything else, which is the
ASCII part of the Python behaviour. -/
def pyLowerC (c : Char) : Char := Char.toLower c

/-- Model of str.lower on a character list. -/
def pyLower (l : List Char) : List Char := l.map pyLowerC

/-- Model of str.lower on a string. -/
def pyLowerS (s : String) : String := ⟨pyLower s.data⟩

/-- Strip leading whitespace. -/
def stripL (l : List Char) : List Char := l.dropWhile isWS

/-- Strip trailing whitespace. -/
def stripR (l : List Char) : List Char := ((l.reverse).dropWhile isWS).reverse

/-- Model of str.strip: drop leading and trailing whitespace. -/
def pyStrip (l : List Char) : List Char := stripR (stripL l)

/-- Model of str.strip on a string. -/
def pyStripS (s : String) : String := ⟨pyStrip s.data⟩

/-- Helper for the model of str.split with no separator. -/
def splitWSAux : List Char → List Char → List String
  | [], acc => if acc = [] then [] else [⟨acc.reverse⟩]
  | c :: rest, acc =>
    if isWS c then
      (if acc = [] then splitWSAux rest [] else ⟨acc.reverse⟩ :: splitWSAux rest [])
    else splitWSAux rest (c :: acc)

/-- Model of str.split with no separator: split on whitespace runs,
dropping empty tokens. -/
def pySplitWS (s : String) : List String := splitWSAux s.data []

/-! ## normalisation functions from the sources -/

/-- ASCII digit test (model of str.isdigit on the ASCII fragment). -/
def isDigit (c : Char) : Bool := 48 ≤ c.toNat && c.toNat ≤ 57

/-- ASCII alphanumeric test (model of str.isalnum on the ASCII fragment). -/
def isAlnum (c : Char) : Bool :=
  (48 ≤ c.toNat && c.toNat ≤ 57) || (65 ≤ c.toNat && c.toNat ≤ 90) ||
    (97 ≤ c.toNat && c.toNat ≤ 122)

/-- norm_text from apply_zotero_metadata.py.  NFKD normalisation is the
identity on the ASCII fragment.  The in-loop collapse of whitespace runs
in the source is subsumed by the final split plus single-space join, so
the value computed here is the value the source returns. -/
def norm_text (s : String) : String :=
  if s = "" then ""
  else
    let lowered := pyLower s.data
    let replaced := lowered.map (fun c => if isAlnum c then c else ' ')
    " ".intercalate (pySplitWS ⟨replaced⟩)

/-- token_set from apply_zotero_metadata.py: tokens of the normalised
text of length at least 2, as a set. -/
def token_set (s : String) : Finset String :=
  ((pySplitWS (norm_text s)).filter (fun t => 2 ≤ t.length)).toFinset

/-- jaccard from apply_zotero_metadata.py, with exact rational arithmetic
in place of IEEE floats. -/
def jaccard (a b : Finset String) : ℚ :=
  if a = ∅ ∧ b = ∅ then 1
  else if a = ∅ ∨ b = ∅ then 0
  else
    let inter : ℚ := (a ∩ b).card
    let union : ℚ := (a ∪ b).card
    if union ≠ 0 then inter / union else 0

/-- Numeric value of an ASCII digit. -/
def digitVal (c : Char) : Nat := c.toNat - 48

/-- Scanner behind parse_year_int: first window of four digits starting
with 19 or 20. -/
def findYear : List Char → Option Int
  | c1 :: c2 :: c3 :: c4 :: rest =>
    if isDigit c1 && isDigit c2 && isDigit c3 && isDigit c4 &&
        ((c1 = '1' && c2 = '9') || (c1 = '2' && c2 = '0')) then
      some ((digitVal c1 * 1000 + digitVal c2 * 100 + digitVal c3 * 10 + digitVal c4 : Nat) : Int)
    else findYear (c2 :: c3 :: c4 :: rest)
  | _ => none

/-- parse_year_int from apply_zotero_metadata.py, applied to the string
rendering of the year value. -/
def parse_year_int (s : String) : Option Int := findYear s.data

/-- The resolver URL whose leading occurrence norm_doi strips. -/
def resolverPre : List Char := "https://doi.org/".data

/-- norm_doi from dedupe_by_doi.py.  For a string starting with the
resolver URL, split("/", 3) cuts at the three slashes of the prefix, so
the last component is everything from index 16 on. -/
def norm_doi (v : String) : String :=
  if v = "" then ""
  else
    let s := pyLower (pyStrip v.data)
    if resolverPre.isPrefixOf s then ⟨s.drop 16⟩ else ⟨s⟩

/-- norm_doi applied to an optional value; None normalises to the empty
string just as the falsy branch of the source does. -/
def norm_doi? (v : Option String) : String :=
  match v with
  | none => ""
  | some s => norm_doi s

/-! ## Duplicate detector (dedupe_by_doi.py) -/

/-- One JSON file of the corpus as the duplicate detector reads it: its
path and the metadata doi value (absent or null modelled as none). -/
structure CorpusFile where
  path : String
  doi : Option String
deriving DecidableEq, Repr

/-- The members of the group for one normalised identifier, in corpus
order: the files whose doi normalises to the (non-blank) key.  This is
the bucket by_doi builds in list_duplicates. -/
def doiGroup (corpus : List CorpusFile) (d : String) : List String :=
  ((corpus.filter (fun f => norm_doi? f.doi = d ∧ d ≠ "")).map (fun f => f.path))

/-- Whether list_duplicates reports a group for identifier d: the bucket
is non-blank and has more than one member. -/
def isDupGroup (corpus : List CorpusFile) (d : String) : Bool :=
  1 < (doiGroup corpus d).length

/-- The member the apply mode keeps for a group: the head of the members
sorted by path, exactly files = sorted(files); keep = files[0]. -/
def keptMember (corpus : List CorpusFile) (d : String) : Option String :=
  ((doiGroup corpus d).mergeSort (fun a b => a ≤ b)).head?

/-- The members the apply mode deletes for a group: everything after the
head of the sorted member list, exactly the loop over files[1:]. -/
def removedMembers (corpus : List CorpusFile) (d : String) : List String :=
  ((doiGroup corpus d).mergeSort (fun a b => a ≤ b)).tail

/-! ## Strict-mode gate (apply_zotero_metadata.py, end of main) -/

/-- The exit code of the merge run as a function of the run summary,
mirroring the strict gates at the end of main: exit 2 when more than 5
percent of a non-empty corpus is unmatched, else exit 3 when any DOI
conflict was counted, else fall through to the summary print and exit 0.
The float comparison unmatched / total > 0.05 is modelled by the exact
rational comparison. -/
def strictExitCode (strict : Bool) (total unmatched doiConflicts : Nat) : Nat :=
  if strict then
    if 0 < total ∧ (unmatched : ℚ) / (total : ℚ) > 1 / 20 then 2
    else if 0 < doiConflicts then 3
    else 0
  else 0

/-! ## CI gate (ci_gate.py) -/

/-- The per-metric ceilings, read from the GATE_* environment variables
with default 0.  Python int() accepts negative values. -/
structure GateLimits where
  missing_doi : Int
  missing_journal : Int
  missing_year : Int
  missing_title : Int
  empty_authors : Int
deriving DecidableEq, Repr

/-- The quality summary as the gate reads it: metric name to integer
count; a metric absent from the record is read as 0 via s.get(k, 0). -/
def observed (summary : List (String × Int)) (k : String) : Int :=
  (summary.lookup k).getD 0

/-- The gated metric names, in the iteration order of the gates dict. -/
def gateMetrics : List String :=
  ["missing_doi", "missing_journal", "missing_year", "missing_title", "empty_authors"]

/-- The ceiling for one gated metric. -/
def gateLimit (g : GateLimits) : String → Int
  | "missing_doi" => g.missing_doi
  | "missing_journal" => g.missing_journal
  | "missing_year" => g.missing_year
  | "missing_title" => g.missing_title
  | "empty_authors" => g.empty_authors
  | _ => 0

/-- The failure listing the gate prints: one entry per gated metric whose
observed value strictly exceeds its ceiling, in gates-dict order. -/
def gateFailures (g : GateLimits) (summary : List (String × Int)) : List String :=
  (gateMetrics.filter (fun k => gateLimit g k < observed summary k))

/-- The exit code of ci_gate.py: sys.exit(1) on a non-empty failure
listing, otherwise return 0. -/
def ciGateExit (g : GateLimits) (summary : List (String × Int)) : Nat :=
  if gateFailures g summary = [] then 0 else 1

/-! ## Data model of documents and candidates (apply_zotero_metadata.py)

Metadata values arriving from JSON are dynamically typed; the model
covers the shapes the engine distinguishes: strings, integers, and
author lists whose members are either plain strings or records with
given, family and display parts. -/

/-- One member of a metadata author list. -/
inductive PyAuthor where
  | str (s : String)
  | dict (given family display : Option String)
deriving DecidableEq, Repr

/-- A dynamically typed metadata value. -/
inductive PyVal where
  | str (s : String)
  | int (n : Int)
  | listA (l : List PyAuthor)
deriving DecidableEq, Repr

/-- Python truthiness of an optional metadata value; a missing key and
the JSON null both land on none. -/
def pyTruthy : Option PyVal → Bool
  | none => false
  | some (.str s) => s ≠ ""
  | some (.int n) => n ≠ 0
  | some (.listA l) => l ≠ []

/-- Truthiness of an optional string. -/
def truthyOS : Option String → Bool
  | none => false
  | some s => s ≠ ""

/-- Rendering of one author for str(); approximate for records.  The
rendering only ever feeds length tests and year scanning, and no claim
depends on the list case. -/
def pyStrOfAuthor : PyAuthor → String
  | .str s => s
  | .dict g f d => (g.getD "") ++ " " ++ (f.getD "") ++ " " ++ (d.getD "")

/-- Model of str() on a metadata value.  Exact for strings and integers;
the list rendering is approximate (see pyStrOfAuthor). -/
def pyStrOfVal : PyVal → String
  | .str s => s
  | .int n => toString n
  | .listA l => "[" ++ String.intercalate ", " (l.map pyStrOfAuthor) ++ "]"

/-- The metadata record of one extracted document, restricted to the
fields the engine touches. -/
structure Metadata where
  title : Option PyVal
  authors : Option PyVal
  year : Option PyVal
  year_norm : Option PyVal
  doi : Option PyVal
  journal : Option PyVal
  abstract : Option PyVal
  volume : Option PyVal
  issue : Option PyVal
  pages : Option PyVal
  issn : Option PyVal
  url : Option PyVal
deriving DecidableEq, Repr

/-- One provenance patch.  add_patch writes op set with confidence 0.9
and no note; log_manual_patch writes op manual_replace, source
manual_patch, a note and confidence 0.99. -/
structure Patch where
  op : String
  path : String
  fromv : Option PyVal
  tov : PyVal
  source : String
  note : Option String
  confidence : ℚ
deriving DecidableEq, Repr

/-- The zotero sub-record of the provenance. -/
structure ZoteroProv where
  key : Option String
  id : Option String
  source : Option String
  exported_at : Option String
  match_method : Option String
  match_confidence : Option ℚ
deriving DecidableEq, Repr

/-- The provenance record of one document. -/
structure Provenance where
  patches : List Patch
  orig_pdf_filename : Option String
  zotero : ZoteroProv
deriving DecidableEq, Repr

/-- One extracted document. -/
structure Doc where
  metadata : Metadata
  provenance : Provenance
deriving DecidableEq, Repr

/-- One CSL candidate record as load_csl_json builds it: title always a
string, doi already lowercased, year an integer when parseable. -/
structure CSLItem where
  id : Option String
  title : String
  title_norm : String
  doi : Option String
  container_title : Option String
  abstract : Option String
  volume : Option String
  issue : Option String
  pages : Option String
  issn : Option String
  url : Option String
  year : Option Int
  authors : List String
deriving DecidableEq, Repr

/-- One row of the tabular export as load_zotero_csv keeps it. -/
structure CSVInfo where
  key : Option String
  pdf_basenames : List String
  title_norm : Option String
deriving DecidableEq, Repr

/-! ## Field merge engine (merge_fields and add_patch) -/

/-- A patch as add_patch appends it. -/
def mkSetPatch (path : String) (old : Option PyVal) (new : PyVal) (src : String) : Patch :=
  { op := "set", path := path, fromv := old, tov := new, source := src, note := none,
    confidence := 9/10 }

/-- The core of set_field: overwrite when the current value differs from
the incoming one.  Every caller passes a non-null incoming value, so the
new_val is not None guard of the source is always satisfied here.
Returns the new stored value and, when a write happened, the written
value (driving the patch and the changed-fields entry). -/
def set_field_step (old : Option PyVal) (newv : PyVal) : Option PyVal × Option PyVal :=
  if old ≠ some newv then (some newv, some newv) else (old, none)

/-- The overwrite condition for title: current value not a string, or
strictly shorter than the candidate title. -/
def titleCond (old : Option PyVal) (cslTitle : String) : Bool :=
  match old with
  | some (.str t) => t.length < cslTitle.length
  | _ => true

/-- Title step of merge_fields. -/
def mergeTitle (old : Option PyVal) (csl : CSLItem) : Option PyVal × Option PyVal :=
  if titleCond old csl.title then set_field_step old (.str csl.title) else (old, none)

/-- year_norm step of merge_fields: written when the candidate year is
truthy, as the normalised string of the integer. -/
def mergeYearNorm (old : Option PyVal) (csl : CSLItem) : Option PyVal × Option PyVal :=
  match csl.year with
  | some y => if y ≠ 0 then set_field_step old (.str (toString y)) else (old, none)
  | none => (old, none)

/-- authors step of merge_fields: a non-empty candidate author list
always replaces. -/
def mergeAuthors (old : Option PyVal) (csl : CSLItem) : Option PyVal × Option PyVal :=
  if csl.authors ≠ [] then set_field_step old (.listA (csl.authors.map PyAuthor.str))
  else (old, none)

/-- Step for the write-if-blank fields (doi, journal, volume, issue,
pages, issn, url): candidate value truthy and current value falsy. -/
def mergeIfBlank (old : Option PyVal) (v : Option String) : Option PyVal × Option PyVal :=
  match v with
  | some s => if s ≠ "" ∧ ¬ pyTruthy old then set_field_step old (.str s) else (old, none)
  | none => (old, none)

/-- The string the abstract length test measures: str of the current
value with falsy values collapsing to the empty string. -/
def pyStrOr (old : Option PyVal) : String :=
  match old with
  | some v => if pyTruthy (some v) then pyStrOfVal v else ""
  | none => ""

/-- abstract step of merge_fields: candidate abstract truthy, and the
current abstract falsy or rendered shorter than 500 characters; the
stored value is the stripped candidate abstract. -/
def mergeAbstract (old : Option PyVal) (csl : CSLItem) : Option PyVal × Option PyVal :=
  match csl.abstract with
  | some a =>
    if a ≠ "" ∧ (¬ pyTruthy old ∨ (pyStrOr old).length < 500) then
      set_field_step old (.str (pyStripS a))
    else (old, none)
  | none => (old, none)

/-- The orig_pdf_filename update of merge_fields: keep the first PDF
basename of the matched CSV row, logging one patch when it changes. -/
def pdfStep (old : Option String) (csvinfo : Option CSVInfo) : Option String × List Patch :=
  match csvinfo with
  | some ci =>
    match ci.pdf_basenames with
    | b0 :: _ =>
      if old ≠ some b0 then
        (some b0, [mkSetPatch "provenance.orig_pdf_filename" (old.map PyVal.str) (.str b0) "zotero:csv"])
      else (old, [])
    | [] => (old, [])
  | none => (old, [])

/-- The changed-fields entry contributed by one step. -/
def chEntry (o : Option PyVal) (name : String) : List String :=
  match o with
  | some _ => [name]
  | none => []

/-- The patch contributed by one metadata step. -/
def chPatch (o : Option PyVal) (path : String) (old : Option PyVal) (src : String) : List Patch :=
  match o with
  | some v => [mkSetPatch path old v src]
  | none => []

/-- merge_fields from apply_zotero_metadata.py.  The source updates the
metadata dict in place, field by field; every step reads exactly the
field it writes, so the simultaneous record update below computes the
same final state, and the patches are listed in the execution order of
the source (title, year_norm, authors, doi, journal, abstract, volume,
issue, pages, issn, url, then the provenance PDF filename). -/
def merge_fields (obj : Doc) (csl : CSLItem) (csvinfo : Option CSVInfo)
    (matchMethod : String) (confidence : Option ℚ) (nowIso : String) : Doc × List String :=
  let md := obj.metadata
  let rT := mergeTitle md.title csl
  let rY := mergeYearNorm md.year_norm csl
  let rA := mergeAuthors md.authors csl
  let rD := mergeIfBlank md.doi csl.doi
  let rJ := mergeIfBlank md.journal csl.container_title
  let rB := mergeAbstract md.abstract csl
  let rV := mergeIfBlank md.volume csl.volume
  let rI := mergeIfBlank md.issue csl.issue
  let rP := mergeIfBlank md.pages csl.pages
  let rS := mergeIfBlank md.issn csl.issn
  let rU := mergeIfBlank md.url csl.url
  let md2 : Metadata :=
    { title := rT.1, authors := rA.1, year := md.year, year_norm := rY.1, doi := rD.1,
      journal := rJ.1, abstract := rB.1, volume := rV.1, issue := rI.1, pages := rP.1,
      issn := rS.1, url := rU.1 }
  let changed :=
    chEntry rT.2 "title" ++ chEntry rY.2 "year_norm" ++ chEntry rA.2 "authors" ++
    chEntry rD.2 "doi" ++ chEntry rJ.2 "journal" ++ chEntry rB.2 "abstract" ++
    chEntry rV.2 "volume" ++ chEntry rI.2 "issue" ++ chEntry rP.2 "pages" ++
    chEntry rS.2 "issn" ++ chEntry rU.2 "url"
  let fieldPatches :=
    chPatch rT.2 "metadata.title" md.title "zotero:title" ++
    chPatch rY.2 "metadata.year_norm" md.year_norm "zotero:year_norm" ++
    chPatch rA.2 "metadata.authors" md.authors "zotero:authors" ++
    chPatch rD.2 "metadata.doi" md.doi "zotero:doi" ++
    chPatch rJ.2 "metadata.journal" md.journal "zotero:journal" ++
    chPatch rB.2 "metadata.abstract" md.abstract "zotero:abstract" ++
    chPatch rV.2 "metadata.volume" md.volume "zotero:volume" ++
    chPatch rI.2 "metadata.issue" md.issue "zotero:issue" ++
    chPatch rP.2 "metadata.pages" md.pages "zotero:pages" ++
    chPatch rS.2 "metadata.issn" md.issn "zotero:issn" ++
    chPatch rU.2 "metadata.url" md.url "zotero:url"
  let prov := obj.provenance
  let rPdf := pdfStep prov.orig_pdf_filename csvinfo
  let z := prov.zotero
  let key2 := match csvinfo with
    | some ci => if truthyOS ci.key then ci.key else z.key
    | none => z.key
  let id2 := if truthyOS csl.id ∧ ¬ truthyOS z.id then csl.id else z.id
  let z2 : ZoteroProv :=
    { key := key2, id := id2, source := some "zotero_csl+csv", exported_at := some nowIso,
      match_method := some matchMethod, match_confidence := confidence }
  ({ metadata := md2,
     provenance :=
       { patches := prov.patches ++ fieldPatches ++ rPdf.2,
         orig_pdf_filename := rPdf.1, zotero := z2 } }, changed)

/-! ## Candidate indices (build_indices) -/

/-- by_doi lookup: the dict is built in input order with last write
winning, keyed by the lowercased truthy doi. -/
def byDoiLookup (items : List CSLItem) (d : String) : Option CSLItem :=
  (items.filter (fun it => truthyOS it.doi ∧ pyLowerS (it.doi.getD "") = d)).getLast?

/-- by_title bucket for one normalised title, in input order. -/
def byTitleBucket (items : List CSLItem) (t : String) : List CSLItem :=
  items.filter (fun it => it.title_norm = t)

/-- by_id lookup (dict comprehension over items with truthy id, last
write wins). -/
def byIdLookup (items : List CSLItem) (k : String) : Option CSLItem :=
  (items.filter (fun it => truthyOS it.id ∧ it.id = some k)).getLast?

/-- The author-year bucket key of one candidate: last whitespace token
of the first author, lowercased, joined with the year.  The source
raises IndexError when the first author has no token; such items are
modelled as absent from the index and no claim reaches them. -/
def authYearKey (it : CSLItem) : Option String :=
  match it.authors with
  | [] => none
  | a0 :: _ =>
    match it.year with
    | some y =>
      if y ≠ 0 then
        match (pySplitWS a0).getLast? with
        | some tok => some (pyLowerS tok ++ "|" ++ toString y)
        | none => none
      else none
    | none => none

/-- by_author_year lookup: first bucket member in input order. -/
def byAuthYearLookup (items : List CSLItem) (k : String) : Option CSLItem :=
  (items.filter (fun it => authYearKey it = some k)).head?

/-! ## Matching cascade -/

/-- Python round(x, 4), modelled half-up; Python rounds ties to even,
and no claim depends on the fourth decimal of a fuzzy score. -/
def round4 (q : ℚ) : ℚ := ((⌊q * 10000 + 1/2⌋ : Int) : ℚ) / 10000

/-- The fuzzy scan: best jaccard score over all candidates, first
maximum winning (strict improvement test). -/
def fuzzyBest (items : List CSLItem) (a : Finset String) : Option CSLItem × ℚ :=
  items.foldl
    (fun best it =>
      let s := jaccard a (token_set it.title)
      if best.2 < s then (some it, s) else best)
    (none, (0 : ℚ))

/-- A manual override value from the overrides JSON. -/
inductive OvVal where
  | str (s : String)
  | int (n : Int)
  | list (l : List String)
  | null
deriving DecidableEq, Repr

/-- A by_filename override entry: a bare string (key or DOI) or an
object with optional doi and key plus literal field values. -/
inductive OvFnEntry where
  | str (s : String)
  | obj (fields : List (String × OvVal))
deriving DecidableEq, Repr

/-- The overrides JSON.  A falsy (empty) overrides value is modelled as
none at the use sites. -/
structure Overrides where
  by_filename : List (String × OvFnEntry)
  by_title : List (String × List (String × OvVal))
deriving DecidableEq, Repr

/-- Step 0 of the cascade: resolve a by_filename override entry to a
candidate, trying the doi key then the id key, exactly as the source
does for the dict and bare-string entry shapes. -/
def resolveOverride (items : List CSLItem) (ov : Overrides) (fname : String) :
    Option (CSLItem × String) :=
  match ov.by_filename.lookup fname with
  | some (.obj fields) =>
    let kdoi := match fields.lookup "doi" with | some (.str s) => some s | _ => none
    let kid := match fields.lookup "key" with | some (.str s) => some s | _ => none
    let viaDoi := match kdoi with
      | some kd => byDoiLookup items (pyLowerS kd)
      | none => none
    (match viaDoi with
     | some c => some (c, "override:doi")
     | none =>
       match kid with
       | some ki => (byIdLookup items ki).map (fun c => (c, "override:id"))
       | none => none)
  | some (.str k) =>
    let viaDoi :=
      if "10.".data.isPrefixOf (pyLowerS k).data then byDoiLookup items (pyLowerS k)
      else none
    (match viaDoi with
     | some c => some (c, "override:doi")
     | none => (byIdLookup items k).map (fun c => (c, "override:id")))
  | none => none

/-- The result of the matching cascade. -/
structure MatchOut where
  cand : Option CSLItem
  method : String
  conf : Option ℚ
deriving DecidableEq, Repr

/-- The matching cascade of main: override resolution, then the
unconditional identifier / exact-title / fuzzy-title chain (which
overwrites any override result, following the source), then the
author-year backup guarded by match is None. -/
def resolveMatch (items : List CSLItem) (ov : Option Overrides) (minFuzzy : ℚ)
    (fname : String) (title : String) (tnorm : String) (doiJson : Option String)
    (firstLast : Option String) (yearJson : Option Int) : MatchOut :=
  let ovm : Option (CSLItem × String) :=
    match ov with
    | some o => resolveOverride items o fname
    | none => none
  let base : MatchOut :=
    match ovm with
    | some (c, m) => { cand := some c, method := m, conf := some 1 }
    | none => { cand := none, method := "", conf := none }
  let viaDoi : Option CSLItem :=
    match doiJson with
    | some d => if d = "" then none else byDoiLookup items d
    | none => none
  let r : MatchOut :=
    match viaDoi with
    | some c => { cand := some c, method := "doi", conf := some 1 }
    | none =>
      if tnorm ≠ "" ∧ byTitleBucket items tnorm ≠ [] then
        match (byTitleBucket items tnorm).head? with
        | some c => { cand := some c, method := "title_exact", conf := some 1 }
        | none => base
      else if tnorm ≠ "" then
        let b := fuzzyBest items (token_set title)
        match b.1 with
        | some c =>
          if minFuzzy ≤ b.2 then
            { cand := some c, method := "title_fuzzy", conf := some (round4 b.2) }
          else base
        | none => base
      else base
  match r.cand with
  | some _ => r
  | none =>
    match firstLast, yearJson with
    | some fl, some y =>
      if fl = "" then r
      else
        match byAuthYearLookup items (fl ++ "|" ++ toString y) with
        | some c => { cand := some c, method := "author_year", conf := some (9/10) }
        | none => r
    | _, _ => r

/-! ## Per-document processing (the body of the main loop) -/

/-- Accumulate the integer value of a digit list. -/
def natFromDigits (l : List Char) : Int :=
  l.foldl (fun acc c => acc * 10 + (digitVal c : Int)) 0

/-- Model of Python int() on a string: optional surrounding whitespace,
optional sign, at least one digit (digit-group underscores are not
modelled; no input here contains them). -/
def pyParseInt (s : String) : Option Int :=
  let l := pyStrip s.data
  match l with
  | [] => none
  | '-' :: ds => if ds ≠ [] ∧ ds.all isDigit then some (-(natFromDigits ds)) else none
  | '+' :: ds => if ds ≠ [] ∧ ds.all isDigit then some (natFromDigits ds) else none
  | ds => if ds.all isDigit then some (natFromDigits ds) else none

/-- Model of str() on an override value; null renders as None, the list
rendering is approximate and unreachable from the claims. -/
def pyStrOfOv : OvVal → String
  | .str s => s
  | .int n => toString n
  | .list l => "[" ++ String.intercalate ", " l ++ "]"
  | .null => "None"

/-- int(str(val)[:4]), as the by_filename year override computes it;
the failure branch of the surrounding try yields none. -/
def pyParseInt4 (v : OvVal) : Option Int := pyParseInt ⟨(pyStrOfOv v).data.take 4⟩

/-- Model of int() on an override value, as the by_title year override
applies it: integers pass through, strings parse or raise, anything
else raises. -/
def pyIntOfOv : OvVal → Option Int
  | .int n => some n
  | .str s => pyParseInt s
  | _ => none

/-- An override value as a metadata value; null maps to none, making
the v is not None guard of manual_set a no-op, as in the source. -/
def ovValToPy : OvVal → Option PyVal
  | .str s => some (.str s)
  | .int n => some (.int n)
  | .list l => some (.listA (l.map PyAuthor.str))
  | .null => none

/-- Metadata field read by name (dict access). -/
def mdGet (md : Metadata) : String → Option PyVal
  | "title" => md.title
  | "authors" => md.authors
  | "year" => md.year
  | "year_norm" => md.year_norm
  | "doi" => md.doi
  | "journal" => md.journal
  | "abstract" => md.abstract
  | "volume" => md.volume
  | "issue" => md.issue
  | "pages" => md.pages
  | "issn" => md.issn
  | "url" => md.url
  | _ => none

/-- Metadata field write by name (dict assignment). -/
def mdSet (md : Metadata) (k : String) (v : PyVal) : Metadata :=
  match k with
  | "title" => { md with title := some v }
  | "authors" => { md with authors := some v }
  | "year" => { md with year := some v }
  | "year_norm" => { md with year_norm := some v }
  | "doi" => { md with doi := some v }
  | "journal" => { md with journal := some v }
  | "abstract" => { md with abstract := some v }
  | "volume" => { md with volume := some v }
  | "issue" => { md with issue := some v }
  | "pages" => { md with pages := some v }
  | "issn" => { md with issn := some v }
  | "url" => { md with url := some v }
  | _ => md

/-- The patch record log_manual_patch appends. -/
def mkManualPatch (path : String) (old : Option PyVal) (new : PyVal) (note : String) : Patch :=
  { op := "manual_replace", path := path, fromv := old, tov := new,
    source := "manual_patch", note := some note, confidence := 99/100 }

/-- log_manual_patch from apply_zotero_metadata.py. -/
def log_manual_patch (prov : Provenance) (path : String) (old : Option PyVal) (new : PyVal)
    (note : String) : Provenance :=
  { prov with patches := prov.patches ++ [mkManualPatch path old new note] }

/-- The state threaded through manual override application. -/
abbrev MState := Metadata × Provenance × List String

/-- manual_set / manual_set_fn: write the value when it is not None and
differs from the current one, logging one manual patch and recording
the field name. -/
def manual_set : MState → String → Option PyVal → String → MState
  | st, _, none, _ => st
  | st, k, some v0, note =>
    if mdGet st.1 k ≠ some v0 then
      (mdSet st.1 k v0,
       log_manual_patch st.2.1 ("metadata." ++ k) (mdGet st.1 k) v0 note,
       st.2.2 ++ [k])
    else st

/-- The by_filename manual field loop (applied whether or not a match
was resolved), iterating year, journal, volume, issue, pages, authors,
doi in the order of the source tuple. -/
def applyFnOverrides (fields : List (String × OvVal)) (st : MState) : MState :=
  let note := "override:by_filename"
  let stYear := match fields.lookup "year" with
    | some (.int n) =>
      (match pyParseInt4 (.int n) with
       | some y => manual_set (manual_set st "year" (some (.int y)) note)
           "year_norm" (some (.str (toString y))) note
       | none => st)
    | some (.str s) =>
      (match pyParseInt4 (.str s) with
       | some y => manual_set (manual_set st "year" (some (.int y)) note)
           "year_norm" (some (.str (toString y))) note
       | none => st)
    | some v => manual_set st "year" (ovValToPy v) note
    | none => st
  let stJournal := match fields.lookup "journal" with
    | some v => manual_set stYear "journal" (ovValToPy v) note
    | none => stYear
  let stVolume := match fields.lookup "volume" with
    | some v => manual_set stJournal "volume" (ovValToPy v) note
    | none => stJournal
  let stIssue := match fields.lookup "issue" with
    | some v => manual_set stVolume "issue" (ovValToPy v) note
    | none => stVolume
  let stPages := match fields.lookup "pages" with
    | some v => manual_set stIssue "pages" (ovValToPy v) note
    | none => stIssue
  let stAuthors := match fields.lookup "authors" with
    | some (.list l) => manual_set stPages "authors" (some (.listA (l.map PyAuthor.str))) note
    | some v => manual_set stPages "authors" (ovValToPy v) note
    | none => stPages
  match fields.lookup "doi" with
  | some (.str s) => manual_set stAuthors "doi" (some (.str s)) note
  | some v => manual_set stAuthors "doi" (ovValToPy v) note
  | none => stAuthors

/-- One optional manual_set driven by a dict lookup (absent key leaves
the state alone). -/
def optManualSet (st : MState) (o : Option OvVal) (k : String) (f : OvVal → Option PyVal)
    (note : String) : MState :=
  match o with
  | some v => manual_set st k (f v) note
  | none => st

/-- The authors step of the by_title application: applied to list
values only. -/
def authorsStepTF (st : MState) (o : Option OvVal) (note : String) : MState :=
  match o with
  | some (.list l) => manual_set st "authors" (some (.listA (l.map PyAuthor.str))) note
  | _ => st

/-- The by_title manual field application of the unmatched branch:
journal, year (int(y) may raise, aborting the run), year_norm (str of
the raw value), volume (str applied), pages, authors (lists only). -/
def applyTitleFields (fields : List (String × OvVal)) (st : MState) : Except Unit MState :=
  let note := "override:by_title"
  let st1 := optManualSet st (fields.lookup "journal") "journal" ovValToPy note
  let yearStep : Except Unit MState :=
    match fields.lookup "year" with
    | some yv =>
      (match pyIntOfOv yv with
       | some y => Except.ok (manual_set (manual_set st1 "year" (some (.int y)) note)
           "year_norm" (some (.str (pyStrOfOv yv))) note)
       | none => Except.error ())
    | none => Except.ok st1
  match yearStep with
  | Except.error e => Except.error e
  | Except.ok st2 =>
    let st3 := optManualSet st2 (fields.lookup "volume") "volume"
      (fun v => some (.str (pyStrOfOv v))) note
    let st4 := optManualSet st3 (fields.lookup "pages") "pages" ovValToPy note
    Except.ok (authorsStepTF st4 (fields.lookup "authors") note)

/-- The title string the loop reads: md.get(title) or the empty string.
A truthy value that is not a string would crash norm_text in the
source; the well-formedness predicate MdOk excludes it. -/
def docTitleStr (md : Metadata) : String :=
  match md.title with
  | some (.str s) => s
  | _ => ""

/-- doi_json of the loop: lowercased, stripped, or-None.  A truthy
non-string doi would crash in the source; MdOk excludes it. -/
def docDoiJson (md : Metadata) : Option String :=
  match md.doi with
  | some (.str s) =>
    let t := pyStrip (pyLower s.data)
    if t = [] then none else some ⟨t⟩
  | _ => none

/-- year_json of the loop: parse_year_int of str of the raw value. -/
def docYearJson (md : Metadata) : Option Int :=
  parse_year_int (match md.year with | some v => pyStrOfVal v | none => "None")

/-- first_author_last_from_json from apply_zotero_metadata.py. -/
def first_author_last (authors : Option PyVal) : Option String :=
  match authors with
  | some (.listA (first :: _)) =>
    (match first with
     | .dict _ f d =>
       let fam := pyStripS (f.getD "")
       if fam ≠ "" then some (pyLowerS fam)
       else
         let disp := pyStripS (d.getD "")
         if pyLowerS disp = "" then none else some (pyLowerS disp)
     | .str s =>
       match (pySplitWS s).getLast? with
       | some tok => some (pyLowerS tok)
       | none => none)
  | _ => none

/-- A title or doi value the source can process without raising: absent,
a string, or falsy. -/
def strOrFalsy (o : Option PyVal) : Prop :=
  match o with
  | none => True
  | some (.str _) => True
  | some v => pyTruthy (some v) = false

/-- Documents on which the source loop runs without a type error. -/
def MdOk (md : Metadata) : Prop := strOrFalsy md.title ∧ strOrFalsy md.doi

/-- The cascade applied to one document record. -/
def resolveMatchDoc (items : List CSLItem) (ov : Option Overrides) (minFuzzy : ℚ)
    (fname : String) (obj : Doc) : MatchOut :=
  resolveMatch items ov minFuzzy fname (docTitleStr obj.metadata)
    (norm_text (docTitleStr obj.metadata)) (docDoiJson obj.metadata)
    (first_author_last obj.metadata.authors) (docYearJson obj.metadata)

/-- The by_title override fields cached for one document: looked up by
the normalised title, falling back to the stripped lowercased raw
title; nothing when the normalised title is empty or overrides are
falsy. -/
def ovTitleFieldsOf (ov : Option Overrides) (title : String) (tnorm : String) :
    Option (List (String × OvVal)) :=
  match ov with
  | some o =>
    if tnorm ≠ "" then
      (match o.by_title.lookup tnorm with
       | some fs => some fs
       | none => o.by_title.lookup (pyLowerS (pyStripS title)))
    else none
  | none => none

/-- The by_filename override entry for one document. -/
def ovEntryOf (ov : Option Overrides) (fname : String) : Option OvFnEntry :=
  match ov with
  | some o => o.by_filename.lookup fname
  | none => none

/-- The CSV row attached to a matched candidate: by key when the
candidate id is truthy and present, else the first row with the same
truthy normalised title. -/
def csvInfoFor (csvmap : List (String × CSVInfo)) (m : CSLItem) : Option CSVInfo :=
  let titleScan := (csvmap.map Prod.snd).find?
    (fun info => match info.title_norm with
      | some t => t ≠ "" ∧ t = m.title_norm
      | none => false)
  match m.id with
  | some mid =>
    if mid ≠ "" then
      (match csvmap.lookup mid with
       | some info => some info
       | none => titleScan)
    else titleScan
  | none => titleScan

/-- What the loop records for one document. -/
structure DocResult where
  obj : Doc
  written : Bool
  status : String
  methodOut : String
  confOut : Option ℚ
  changedOut : List String
  conflictFlag : Bool
  conflictCell : String
  conflictDelta : Nat
  unmatchedDelta : Nat
deriving DecidableEq, Repr

/-- The body of the main loop for one parsed document, from feature
extraction to the write decision.  The error value models the uncaught
int() failure of the by_title year override, which aborts the whole
run in the source. -/
def perDoc (items : List CSLItem) (csvmap : List (String × CSVInfo)) (ov : Option Overrides)
    (minFuzzy : ℚ) (strict dryRun : Bool) (fname : String) (obj : Doc) (nowIso : String) :
    Except Unit DocResult :=
  let md := obj.metadata
  let title := docTitleStr md
  let tnorm := norm_text title
  let doiJson := docDoiJson md
  let ovEntry := ovEntryOf ov fname
  let ovTitleFields := ovTitleFieldsOf ov title tnorm
  let st0 : MState :=
    match ovEntry with
    | some (.obj fields) => applyFnOverrides fields (md, obj.provenance, [])
    | _ => (md, obj.provenance, [])
  let obj1 : Doc := { metadata := st0.1, provenance := st0.2.1 }
  let mr := resolveMatchDoc items ov minFuzzy fname obj
  match mr.cand with
  | none =>
    (match ovTitleFields with
     | some fs =>
       if fs ≠ [] then
         match applyTitleFields fs (obj1.metadata, obj1.provenance, []) with
         | Except.error e => Except.error e
         | Except.ok st =>
           let changed := st.2.2
           Except.ok
             { obj := { metadata := st.1, provenance := st.2.1 },
               written := changed ≠ [] ∧ ¬ dryRun,
               status := if changed ≠ [] then "manual_override" else "unmatched",
               methodOut := if changed ≠ [] then "override:by_title" else "",
               confOut := none, changedOut := changed, conflictFlag := false,
               conflictCell := "", conflictDelta := 0, unmatchedDelta := 1 }
       else
         Except.ok
           { obj := obj1, written := ¬ strict ∧ ¬ dryRun, status := "unmatched",
             methodOut := "", confOut := none, changedOut := [], conflictFlag := false,
             conflictCell := "", conflictDelta := 0, unmatchedDelta := 1 }
     | none =>
       Except.ok
         { obj := obj1, written := ¬ strict ∧ ¬ dryRun, status := "unmatched",
           methodOut := "", confOut := none, changedOut := [], conflictFlag := false,
           conflictCell := "", conflictDelta := 0, unmatchedDelta := 1 })
  | some m =>
    let conflict : Bool := truthyOS doiJson ∧ truthyOS m.doi ∧ doiJson ≠ m.doi
    let csvinfo := csvInfoFor csvmap m
    let merged := merge_fields obj1 m csvinfo mr.method mr.conf nowIso
    Except.ok
      { obj := merged.1,
        written := ¬ dryRun ∧ (¬ strict ∨ (strict ∧ ¬ conflict)),
        status := if merged.2 ≠ [] then "changed" else "unchanged",
        methodOut := mr.method, confOut := mr.conf, changedOut := merged.2,
        conflictFlag := conflict,
        conflictCell := if conflict then "yes" else "",
        conflictDelta := if conflict then 1 else 0, unmatchedDelta := 0 }

/-! ## Concrete inputs used to settle the claims -/

/-- A candidate record with every optional part absent. -/
def emptyCSL : CSLItem :=
  { id := none, title := "", title_norm := "", doi := none, container_title := none,
    abstract := none, volume := none, issue := none, pages := none, issn := none,
    url := none, year := none, authors := [] }

/-- A metadata record with every field absent. -/
def emptyMd : Metadata :=
  { title := none, authors := none, year := none, year_norm := none, doi := none,
    journal := none, abstract := none, volume := none, issue := none, pages := none,
    issn := none, url := none }

/-- A fresh provenance record. -/
def emptyProv : Provenance :=
  { patches := [], orig_pdf_filename := none,
    zotero := { key := none, id := none, source := none, exported_at := none,
                match_method := none, match_confidence := none } }

/-- Candidate with id K and identifier 10.1/a, target of an override. -/
def cslK : CSLItem :=
  { emptyCSL with id := some "K", title := "a", title_norm := "a", doi := some "10.1/a" }

/-- Candidate with identifier 10.1/b. -/
def cslB : CSLItem :=
  { emptyCSL with title := "b", title_norm := "b", doi := some "10.1/b" }

/-- Overrides mapping the file f.json to the candidate key K. -/
def c1ov : Overrides := { by_filename := [("f.json", .str "K")], by_title := [] }

/-- A document carrying identifier 10.1/b, so both the override and the
identifier chain resolve. -/
def c1doc : Doc :=
  { metadata := { emptyMd with doi := some (.str "10.1/b") }, provenance := emptyProv }

/-- A candidate supplying only a title. -/
def c3csl : CSLItem := { emptyCSL with title := "x" }

/-- A CSV row supplying one PDF basename. -/
def c3ci : CSVInfo := { key := none, pdf_basenames := ["a.pdf"], title_norm := none }

/-- An empty document. -/
def c3doc : Doc := { metadata := emptyMd, provenance := emptyProv }

/-- A candidate with a title but no identifier. -/
def c4cand : CSLItem := { emptyCSL with title := "b", title_norm := "b" }

/-- A document with identifier 10.1/a and the title of c4cand. -/
def c4doc : Doc :=
  { metadata := { emptyMd with title := some (.str "b"), doi := some (.str "10.1/a") },
    provenance := emptyProv }

/-- A document with identifier 10.1/a matching cslB by title. -/
def c4wdoc : Doc :=
  { metadata := { emptyMd with title := some (.str "b"), doi := some (.str "10.1/a") },
    provenance := emptyProv }

/-- Overrides supplying a journal value for the normalised title b. -/
def c9ov : Overrides := { by_filename := [], by_title := [("b", [("journal", .str "J")])] }

/-- A document with title b and identifier 10.1/b, so the cascade
resolves cslB while the by_title override also applies to it. -/
def c9doc : Doc :=
  { metadata := { emptyMd with title := some (.str "b"), doi := some (.str "10.1/b") },
    provenance := emptyProv }

/-- A document with title b and no identifier, unmatched against an
empty candidate list. -/
def c9wdoc : Doc :=
  { metadata := { emptyMd with title := some (.str "b") }, provenance := emptyProv }

/-- An unmatched document for the pass-through witness. -/
def c10doc : Doc :=
  { metadata := { emptyMd with title := some (.str "Early Tracheostomy Outcomes") },
    provenance := emptyProv }

/-- A corpus with two files sharing identifier 10.9/xyz after
normalisation and one file without identifier. -/
def c6corpus : List CorpusFile :=
  [{ path := "b.json", doi := some "10.9/xyz" },
   { path := "a.json", doi := some "10.9/XYZ " },
   { path := "c.json", doi := none }]

/-- Gate ceilings with a negative override for missing_doi. -/
def negGates : GateLimits :=
  { missing_doi := -1, missing_journal := 0, missing_year := 0, missing_title := 0,
    empty_authors := 0 }

/-- Gate ceilings all zero (the defaults). -/
def zeroGates : GateLimits :=
  { missing_doi := 0, missing_journal := 0, missing_year := 0, missing_title := 0,
    empty_authors := 0 }

/-! ## Lemmas about the string primitives -/

theorem char_toNat_ofNat_small {n : Nat} (h1 : 97 ≤ n) (h2 : n ≤ 122) :
    (Char.ofNat n).toNat = n := by
  have hv : n.isValidChar := Or.inl (by omega)
  simp only [Char.ofNat, hv, dite_true, Char.toNat]
  simp [Char.ofNatAux, UInt32.toNat, UInt32.ofNatCore]

theorem pyLowerC_def (c : Char) :
    pyLowerC c = if c.toNat ≥ 65 ∧ c.toNat ≤ 90 then Char.ofNat (c.toNat + 32) else c := rfl

theorem pyLowerC_idem (c : Char) : pyLowerC (pyLowerC c) = pyLowerC c := by
  by_cases h : c.toNat ≥ 65 ∧ c.toNat ≤ 90
  · have hc : pyLowerC c = Char.ofNat (c.toNat + 32) := by rw [pyLowerC_def c, if_pos h]
    have hn : (Char.ofNat (c.toNat + 32)).toNat = c.toNat + 32 :=
      char_toNat_ofNat_small (by omega) (by omega)
    have h2 : pyLowerC (Char.ofNat (c.toNat + 32)) = Char.ofNat (c.toNat + 32) := by
      rw [pyLowerC_def, if_neg]
      rw [hn]
      omega
    rw [hc, h2]
  · have hc : pyLowerC c = c := by rw [pyLowerC_def c, if_neg h]
    rw [hc, hc]

theorem isWS_pyLowerC (c : Char) : isWS (pyLowerC c) = isWS c := by
  by_cases h : c.toNat ≥ 65 ∧ c.toNat ≤ 90
  · have hc : pyLowerC c = Char.ofNat (c.toNat + 32) := by rw [pyLowerC_def c, if_pos h]
    have hn : (Char.ofNat (c.toNat + 32)).toNat = c.toNat + 32 :=
      char_toNat_ofNat_small (by omega) (by omega)
    have h1 : c.toNat ≥ 65 := h.1
    have h2 : c.toNat ≤ 90 := h.2
    have e1 : isWS (Char.ofNat (c.toNat + 32)) = false := by
      simp only [isWS, hn, Bool.or_eq_false_iff, decide_eq_false_iff_not]
      omega
    have e2 : isWS c = false := by
      simp only [isWS, Bool.or_eq_false_iff, decide_eq_false_iff_not]
      omega
    rw [hc, e1, e2]
  · have hc : pyLowerC c = c := by rw [pyLowerC_def c, if_neg h]
    rw [hc]

theorem pyLower_idem (l : List Char) : pyLower (pyLower l) = pyLower l := by
  unfold pyLower
  rw [List.map_map]
  exact List.map_congr_left (fun c _ => pyLowerC_idem c)

theorem dropWhile_idem (p : Char → Bool) (l : List Char) :
    (l.dropWhile p).dropWhile p = l.dropWhile p := by
  induction l with
  | nil => rfl
  | cons a t ih =>
    by_cases h : p a
    · simp [List.dropWhile_cons, h, ih]
    · simp [List.dropWhile_cons, h]

theorem dropWhile_eq_self_of_head {p : Char → Bool} {l : List Char}
    (h : ∀ x, l.head? = some x → p x = false) : l.dropWhile p = l := by
  cases l with
  | nil => rfl
  | cons a t => simp [List.dropWhile_cons, h a rfl]

theorem stripR_idem (l : List Char) : stripR (stripR l) = stripR l := by
  unfold stripR
  rw [List.reverse_reverse, dropWhile_idem]

theorem stripR_prefix (l : List Char) : stripR l <+: l := by
  rw [← List.reverse_suffix]
  unfold stripR
  rw [List.reverse_reverse]
  exact List.dropWhile_suffix isWS

theorem stripL_head (l : List Char) :
    ∀ x, (stripL l).head? = some x → isWS x = false := by
  intro x hx
  have h := List.head?_dropWhile_not isWS l
  unfold stripL at hx
  rw [hx] at h
  exact h

theorem pyStrip_idem (l : List Char) : pyStrip (pyStrip l) = pyStrip l := by
  unfold pyStrip
  have hpre : stripR (stripL l) <+: stripL l := stripR_prefix _
  have hL : stripL (stripR (stripL l)) = stripR (stripL l) := by
    apply dropWhile_eq_self_of_head
    intro x hx
    cases hr : stripR (stripL l) with
    | nil => rw [hr] at hx; simp at hx
    | cons a t =>
      rw [hr] at hx
      simp only [List.head?_cons, Option.some.injEq] at hx
      subst hx
      rw [hr] at hpre
      obtain ⟨s, hs⟩ := hpre
      apply stripL_head l
      rw [← hs]
      rfl
  rw [hL, stripR_idem]

theorem isWS_comp_pyLowerC : (isWS ∘ pyLowerC) = isWS := funext isWS_pyLowerC

theorem stripL_pyLower (l : List Char) : stripL (pyLower l) = pyLower (stripL l) := by
  unfold stripL pyLower
  rw [List.dropWhile_map, isWS_comp_pyLowerC]

theorem stripR_pyLower (l : List Char) : stripR (pyLower l) = pyLower (stripR l) := by
  unfold stripR pyLower
  rw [← List.map_reverse, List.dropWhile_map, isWS_comp_pyLowerC, ← List.map_reverse]

theorem pyStrip_pyLower (l : List Char) : pyStrip (pyLower l) = pyLower (pyStrip l) := by
  unfold pyStrip
  rw [stripL_pyLower, stripR_pyLower]

theorem lower_strip_fixed (l : List Char) :
    pyLower (pyStrip (pyLower (pyStrip l))) = pyLower (pyStrip l) := by
  rw [pyStrip_pyLower, pyStrip_idem, pyLower_idem]

/-! ## Stability lemmas for the merge steps -/

theorem set_field_step_stable (old : Option PyVal) (v : PyVal) :
    set_field_step (set_field_step old v).1 v = ((set_field_step old v).1, none) := by
  unfold set_field_step
  by_cases h : old = some v
  · simp [h]
  · simp [h]

theorem mergeTitle_stable (old : Option PyVal) (csl : CSLItem) :
    mergeTitle (mergeTitle old csl).1 csl = ((mergeTitle old csl).1, none) := by
  unfold mergeTitle
  by_cases hc : titleCond old csl.title
  · simp only [hc, if_true]
    by_cases hc2 : titleCond (set_field_step old (.str csl.title)).1 csl.title
    · simp [hc2, set_field_step_stable]
    · simp [hc2]
  · simp [hc]

theorem mergeYearNorm_stable (old : Option PyVal) (csl : CSLItem) :
    mergeYearNorm (mergeYearNorm old csl).1 csl = ((mergeYearNorm old csl).1, none) := by
  unfold mergeYearNorm
  cases csl.year with
  | none => rfl
  | some y =>
    by_cases hy : y ≠ 0
    · simp [hy, set_field_step_stable]
    · simp [hy]

theorem mergeAuthors_stable (old : Option PyVal) (csl : CSLItem) :
    mergeAuthors (mergeAuthors old csl).1 csl = ((mergeAuthors old csl).1, none) := by
  unfold mergeAuthors
  by_cases ha : csl.authors ≠ []
  · simp [ha, set_field_step_stable]
  · simp [ha]

theorem mergeIfBlank_stable (old : Option PyVal) (v : Option String) :
    mergeIfBlank (mergeIfBlank old v).1 v = ((mergeIfBlank old v).1, none) := by
  cases v with
  | none => rfl
  | some s =>
    simp only [mergeIfBlank]
    by_cases hc : s ≠ "" ∧ ¬ pyTruthy old
    · rw [if_pos hc]
      by_cases hc2 : s ≠ "" ∧ ¬ pyTruthy (set_field_step old (.str s)).1
      · rw [if_pos hc2, set_field_step_stable]
      · rw [if_neg hc2]
    · rw [if_neg hc]
      simp only []
      rw [if_neg hc]

theorem mergeAbstract_stable (old : Option PyVal) (csl : CSLItem) :
    mergeAbstract (mergeAbstract old csl).1 csl = ((mergeAbstract old csl).1, none) := by
  cases habs : csl.abstract with
  | none => simp only [mergeAbstract, habs]
  | some a =>
    simp only [mergeAbstract, habs]
    by_cases hc : a ≠ "" ∧ (¬ pyTruthy old ∨ (pyStrOr old).length < 500)
    · rw [if_pos hc]
      by_cases hc2 : a ≠ "" ∧ (¬ pyTruthy (set_field_step old (.str (pyStripS a))).1 ∨
          (pyStrOr (set_field_step old (.str (pyStripS a))).1).length < 500)
      · rw [if_pos hc2, set_field_step_stable]
      · rw [if_neg hc2]
    · rw [if_neg hc]
      simp only []
      rw [if_neg hc]

theorem pdfStep_stable (old : Option String) (ci : Option CSVInfo) :
    pdfStep (pdfStep old ci).1 ci = ((pdfStep old ci).1, []) := by
  cases ci with
  | none => rfl
  | some c =>
    cases hb : c.pdf_basenames with
    | nil => simp [pdfStep, hb]
    | cons b0 rest =>
      by_cases h : old = some b0
      · simp [pdfStep, hb, h]
      · simp [pdfStep, hb, h]

/-! ## No-write lemmas for the merge steps -/

theorem set_field_step_none (old : Option PyVal) (v : PyVal) :
    (set_field_step old v).2 = none → (set_field_step old v).1 = old := by
  unfold set_field_step
  by_cases h : old ≠ some v
  · rw [if_pos h]
    intro h2
    exact absurd h2 (by simp)
  · rw [if_neg h]
    intro _
    rfl

theorem mergeTitle_none (old : Option PyVal) (csl : CSLItem) :
    (mergeTitle old csl).2 = none → (mergeTitle old csl).1 = old := by
  unfold mergeTitle
  by_cases hc : titleCond old csl.title
  · rw [if_pos hc]
    exact set_field_step_none old _
  · rw [if_neg hc]
    intro _
    rfl

theorem mergeYearNorm_none (old : Option PyVal) (csl : CSLItem) :
    (mergeYearNorm old csl).2 = none → (mergeYearNorm old csl).1 = old := by
  cases hy2 : csl.year with
  | none => simp only [mergeYearNorm, hy2]; intro _ ; trivial
  | some y =>
    simp only [mergeYearNorm, hy2]
    by_cases hy : y ≠ 0
    · rw [if_pos hy]
      exact set_field_step_none old _
    · rw [if_neg hy]
      intro _
      rfl

theorem mergeAuthors_none (old : Option PyVal) (csl : CSLItem) :
    (mergeAuthors old csl).2 = none → (mergeAuthors old csl).1 = old := by
  unfold mergeAuthors
  by_cases ha : csl.authors ≠ []
  · rw [if_pos ha]
    exact set_field_step_none old _
  · rw [if_neg ha]
    intro _
    rfl

theorem mergeIfBlank_none (old : Option PyVal) (v : Option String) :
    (mergeIfBlank old v).2 = none → (mergeIfBlank old v).1 = old := by
  cases v with
  | none => intro _ ; rfl
  | some s =>
    simp only [mergeIfBlank]
    by_cases hc : s ≠ "" ∧ ¬ pyTruthy old
    · rw [if_pos hc]
      exact set_field_step_none old _
    · rw [if_neg hc]
      intro _
      rfl

theorem mergeAbstract_none (old : Option PyVal) (csl : CSLItem) :
    (mergeAbstract old csl).2 = none → (mergeAbstract old csl).1 = old := by
  cases habs : csl.abstract with
  | none => simp only [mergeAbstract, habs]; intro _ ; trivial
  | some a =>
    simp only [mergeAbstract, habs]
    by_cases hc : a ≠ "" ∧ (¬ pyTruthy old ∨ (pyStrOr old).length < 500)
    · rw [if_pos hc]
      exact set_field_step_none old _
    · rw [if_neg hc]
      intro _
      rfl

/-- The merge result written out field by field, one unfolding of the
definition. -/
theorem merge_fields_eq (obj : Doc) (csl : CSLItem) (ci : Option CSVInfo) (m : String)
    (conf : Option ℚ) (now : String) :
    merge_fields obj csl ci m conf now =
      ({ metadata :=
          { title := (mergeTitle obj.metadata.title csl).1,
            authors := (mergeAuthors obj.metadata.authors csl).1,
            year := obj.metadata.year,
            year_norm := (mergeYearNorm obj.metadata.year_norm csl).1,
            doi := (mergeIfBlank obj.metadata.doi csl.doi).1,
            journal := (mergeIfBlank obj.metadata.journal csl.container_title).1,
            abstract := (mergeAbstract obj.metadata.abstract csl).1,
            volume := (mergeIfBlank obj.metadata.volume csl.volume).1,
            issue := (mergeIfBlank obj.metadata.issue csl.issue).1,
            pages := (mergeIfBlank obj.metadata.pages csl.pages).1,
            issn := (mergeIfBlank obj.metadata.issn csl.issn).1,
            url := (mergeIfBlank obj.metadata.url csl.url).1 },
         provenance :=
          { patches := obj.provenance.patches ++
              (chPatch (mergeTitle obj.metadata.title csl).2 "metadata.title"
                  obj.metadata.title "zotero:title" ++
                chPatch (mergeYearNorm obj.metadata.year_norm csl).2 "metadata.year_norm"
                  obj.metadata.year_norm "zotero:year_norm" ++
                chPatch (mergeAuthors obj.metadata.authors csl).2 "metadata.authors"
                  obj.metadata.authors "zotero:authors" ++
                chPatch (mergeIfBlank obj.metadata.doi csl.doi).2 "metadata.doi"
                  obj.metadata.doi "zotero:doi" ++
                chPatch (mergeIfBlank obj.metadata.journal csl.container_title).2
                  "metadata.journal" obj.metadata.journal "zotero:journal" ++
                chPatch (mergeAbstract obj.metadata.abstract csl).2 "metadata.abstract"
                  obj.metadata.abstract "zotero:abstract" ++
                chPatch (mergeIfBlank obj.metadata.volume csl.volume).2 "metadata.volume"
                  obj.metadata.volume "zotero:volume" ++
                chPatch (mergeIfBlank obj.metadata.issue csl.issue).2 "metadata.issue"
                  obj.metadata.issue "zotero:issue" ++
                chPatch (mergeIfBlank obj.metadata.pages csl.pages).2 "metadata.pages"
                  obj.metadata.pages "zotero:pages" ++
                chPatch (mergeIfBlank obj.metadata.issn csl.issn).2 "metadata.issn"
                  obj.metadata.issn "zotero:issn" ++
                chPatch (mergeIfBlank obj.metadata.url csl.url).2 "metadata.url"
                  obj.metadata.url "zotero:url") ++
              (pdfStep obj.provenance.orig_pdf_filename ci).2,
            orig_pdf_filename := (pdfStep obj.provenance.orig_pdf_filename ci).1,
            zotero :=
              { key :=
                  (match ci with
                   | some c => if truthyOS c.key then c.key else obj.provenance.zotero.key
                   | none => obj.provenance.zotero.key),
                id :=
                  (if truthyOS csl.id ∧ ¬ truthyOS obj.provenance.zotero.id then csl.id
                   else obj.provenance.zotero.id),
                source := some "zotero_csl+csv", exported_at := some now,
                match_method := some m, match_confidence := conf } } },
       chEntry (mergeTitle obj.metadata.title csl).2 "title" ++
         chEntry (mergeYearNorm obj.metadata.year_norm csl).2 "year_norm" ++
         chEntry (mergeAuthors obj.metadata.authors csl).2 "authors" ++
         chEntry (mergeIfBlank obj.metadata.doi csl.doi).2 "doi" ++
         chEntry (mergeIfBlank obj.metadata.journal csl.container_title).2 "journal" ++
         chEntry (mergeAbstract obj.metadata.abstract csl).2 "abstract" ++
         chEntry (mergeIfBlank obj.metadata.volume csl.volume).2 "volume" ++
         chEntry (mergeIfBlank obj.metadata.issue csl.issue).2 "issue" ++
         chEntry (mergeIfBlank obj.metadata.pages csl.pages).2 "pages" ++
         chEntry (mergeIfBlank obj.metadata.issn csl.issn).2 "issn" ++
         chEntry (mergeIfBlank obj.metadata.url csl.url).2 "url") := rfl

/-- One metadata-patch segment paired with its changed-fields segment:
the patch carries op set, a zotero source naming the field, the
metadata path of the field and the previous value. -/
theorem forall2_chSeg (o : Option PyVal) (name path src : String) (old : Option PyVal)
    (F : String → Option PyVal) (hs : src = "zotero:" ++ name)
    (hp : path = "metadata." ++ name) (hf : old = F name) :
    List.Forall₂ (fun (p : Patch) (k : String) =>
        p.op = "set" ∧ p.source = "zotero:" ++ k ∧ p.path = "metadata." ++ k ∧
        p.fromv = F k)
      (chPatch o path old src) (chEntry o name) := by
  cases o with
  | none => exact List.Forall₂.nil
  | some v =>
    refine List.Forall₂.cons ⟨rfl, ?_, ?_, ?_⟩ List.Forall₂.nil
    · rw [hs]
      rfl
    · rw [hp]
      rfl
    · rw [hf]
      rfl

/-! ## Preservation lemmas for the manual override steps -/

theorem mdGet_journal (md : Metadata) : mdGet md "journal" = md.journal := rfl

theorem mdSet_journal_self (md : Metadata) (v : PyVal) :
    (mdSet md "journal" v).journal = some v := rfl

theorem mdSet_journal (md : Metadata) (k : String) (v : PyVal) (hk : k ≠ "journal") :
    (mdSet md k v).journal = md.journal := by
  unfold mdSet
  split <;> simp_all

/-- What the trailing by_title steps preserve about an earlier state:
the journal value, and membership in the patch and changed lists. -/
def PresJ (st st2 : MState) : Prop :=
  st2.1.journal = st.1.journal ∧
  (∀ p ∈ st.2.1.patches, p ∈ st2.2.1.patches) ∧
  (∀ c ∈ st.2.2, c ∈ st2.2.2)

theorem presJ_refl (st : MState) : PresJ st st :=
  ⟨rfl, fun _ hp => hp, fun _ hc => hc⟩

theorem presJ_trans {a b c : MState} (h1 : PresJ a b) (h2 : PresJ b c) : PresJ a c :=
  ⟨h2.1.trans h1.1, fun p hp => h2.2.1 p (h1.2.1 p hp), fun x hx => h2.2.2 x (h1.2.2 x hx)⟩

theorem presJ_manual (st : MState) (k : String) (v : Option PyVal) (note : String)
    (hk : k ≠ "journal") : PresJ st (manual_set st k v note) := by
  cases v with
  | none => exact presJ_refl st
  | some v0 =>
    simp only [manual_set]
    by_cases h : mdGet st.1 k ≠ some v0
    · rw [if_pos h]
      refine ⟨mdSet_journal _ _ _ hk, ?_, ?_⟩
      · intro p hp
        unfold log_manual_patch
        exact List.mem_append_left _ hp
      · intro c hc
        exact List.mem_append_left _ hc
    · rw [if_neg h]
      exact presJ_refl st

theorem presJ_optManualSet (st : MState) (o : Option OvVal) (k : String)
    (f : OvVal → Option PyVal) (note : String) (hk : k ≠ "journal") :
    PresJ st (optManualSet st o k f note) := by
  unfold optManualSet
  cases o with
  | none => exact presJ_refl st
  | some v => exact presJ_manual st k (f v) note hk

theorem presJ_authorsStep (st : MState) (o : Option OvVal) (note : String) :
    PresJ st (authorsStepTF st o note) := by
  unfold authorsStepTF
  cases o with
  | none => exact presJ_refl st
  | some v =>
    cases v with
    | str s => exact presJ_refl st
    | int n => exact presJ_refl st
    | null => exact presJ_refl st
    | list l => exact presJ_manual st "authors" _ note (by decide)

/-- Applying the by_title fields with a journal value and no year key
writes the journal, logs the manual patch and records the field. -/
theorem applyTitleFields_journal (fs : List (String × OvVal)) (st : MState) (j : String)
    (hj : fs.lookup "journal" = some (.str j))
    (hy : fs.lookup "year" = none)
    (hold : st.1.journal ≠ some (.str j)) :
    ∃ st2, applyTitleFields fs st = Except.ok st2 ∧
      st2.1.journal = some (.str j) ∧
      mkManualPatch "metadata.journal" st.1.journal (.str j) "override:by_title" ∈
        st2.2.1.patches ∧
      "journal" ∈ st2.2.2 := by
  have hold2 : mdGet st.1 "journal" ≠ some (PyVal.str j) := by
    rw [mdGet_journal]
    exact hold
  have h1 : optManualSet st (fs.lookup "journal") "journal" ovValToPy "override:by_title" =
      (mdSet st.1 "journal" (.str j),
       log_manual_patch st.2.1 "metadata.journal" (mdGet st.1 "journal") (.str j)
         "override:by_title",
       st.2.2 ++ ["journal"]) := by
    rw [hj]
    simp only [optManualSet, ovValToPy, manual_set]
    rw [if_pos hold2]
    rfl
  have hbase1 : (mdSet st.1 "journal" (PyVal.str j)).journal = some (.str j) :=
    mdSet_journal_self _ _
  have hbase2 : mkManualPatch "metadata.journal" st.1.journal (.str j) "override:by_title" ∈
      (log_manual_patch st.2.1 "metadata.journal" (mdGet st.1 "journal") (.str j)
        "override:by_title").patches := by
    unfold log_manual_patch
    rw [mdGet_journal]
    exact List.mem_append_right _ (List.mem_singleton.mpr rfl)
  have hbase3 : "journal" ∈ st.2.2 ++ ["journal"] :=
    List.mem_append_right _ (List.mem_singleton.mpr rfl)
  simp only [applyTitleFields, hy, h1]
  refine ⟨_, rfl, ?_, ?_, ?_⟩
  all_goals
    have hpres := presJ_trans (presJ_trans
      (presJ_optManualSet
        (mdSet st.1 "journal" (.str j),
         log_manual_patch st.2.1 "metadata.journal" (mdGet st.1 "journal") (.str j)
           "override:by_title",
         st.2.2 ++ ["journal"])
        (fs.lookup "volume") "volume" (fun v => some (.str (pyStrOfOv v)))
        "override:by_title" (by decide))
      (presJ_optManualSet _ (fs.lookup "pages") "pages" ovValToPy
        "override:by_title" (by decide)))
      (presJ_authorsStep _ (fs.lookup "authors") "override:by_title")
  · rw [hpres.1]
    exact hbase1
  · exact hpres.2.1 _ hbase2
  · exact hpres.2.2 _ hbase3

theorem conflictCond_iff (dj mdoi : Option String) :
    ((truthyOS dj ∧ truthyOS mdoi ∧ dj ≠ mdoi : Bool) = true) ↔
      ∃ d d2, dj = some d ∧ mdoi = some d2 ∧ d ≠ "" ∧ d2 ≠ "" ∧ d ≠ d2 := by
  cases dj with
  | none => simp [truthyOS]
  | some d =>
    cases mdoi with
    | none => simp [truthyOS]
    | some d2 =>
      simp only [truthyOS, decide_eq_true_eq, Bool.and_eq_true, Option.some.injEq, ne_eq]
      constructor
      · rintro ⟨h1, h2, h3⟩
        exact ⟨d, d2, rfl, rfl, by simpa using h1, by simpa using h2, by simpa using h3⟩
      · rintro ⟨d3, d4, hd3, hd4, h1, h2, h3⟩
        subst hd3
        subst hd4
        exact ⟨by simpa using h1, by simpa using h2, by simpa using h3⟩

/-! ## Sorting lemmas for the duplicate detector -/

theorem mergeSortLE_sorted (l : List String) :
    (l.mergeSort (fun a b => a ≤ b)).Pairwise (· ≤ ·) := by
  have h := @List.sorted_mergeSort String (fun a b : String => decide (a ≤ b))
    (fun a b c hab hbc => by
      simp only [decide_eq_true_eq] at hab hbc ⊢
      exact le_trans hab hbc)
    (fun a b => by rcases le_total a b with h | h <;> simp [h]) l
  exact h.imp (fun {a b} hab => of_decide_eq_true hab)

theorem mergeSortLE_perm (l : List String) :
    (l.mergeSort (fun a b => a ≤ b)).Perm l :=
  List.mergeSort_perm l _

theorem doiGroup_nodup (corpus : List CorpusFile) (d : String)
    (hnd : (corpus.map CorpusFile.path).Nodup) : (doiGroup corpus d).Nodup := by
  unfold doiGroup
  exact List.Nodup.sublist (List.Sublist.map _ (List.filter_sublist corpus)) hnd

/-! ## Claim theorems -/

/-- Claim C2: running the field merge a second time on an already-merged
document, with the same candidate, CSV row, method and confidence,
returns an empty changed-fields list and appends no provenance patch. -/
theorem merge_fields_idempotent (obj : Doc) (csl : CSLItem) (ci : Option CSVInfo)
    (m : String) (conf : Option ℚ) (n1 n2 : String) :
    (merge_fields (merge_fields obj csl ci m conf n1).1 csl ci m conf n2).2 = [] ∧
    (merge_fields (merge_fields obj csl ci m conf n1).1 csl ci m conf n2).1.provenance.patches =
      (merge_fields obj csl ci m conf n1).1.provenance.patches := by
  constructor <;>
    simp only [merge_fields, mergeTitle_stable, mergeYearNorm_stable, mergeAuthors_stable,
      mergeIfBlank_stable, mergeAbstract_stable, pdfStep_stable, chEntry, chPatch,
      List.append_nil, List.nil_append]

/-- Claim C8 counterexample: norm_doi is not idempotent on an input
whose resolver-stripped remainder itself begins with the resolver URL;
the first application leaves a second prefix that the second
application strips further. -/
theorem norm_doi_not_idempotent_cex :
    norm_doi (norm_doi "https://doi.org/https://doi.org/10.1/x") ≠
      norm_doi "https://doi.org/https://doi.org/10.1/x" := by decide

/-- Claim C8 (amended): norm_doi is idempotent on every input whose
stripped, lowercased form does not begin with the resolver URL prefix;
on prefixed inputs a second application can strip further. -/
theorem norm_doi_idem_no_resolver (x : String)
    (h : ¬ resolverPre.isPrefixOf (pyLower (pyStrip x.data))) :
    norm_doi (norm_doi x) = norm_doi x := by
  by_cases hx : x = ""
  · rw [hx]; decide
  · have hstep : norm_doi x = ⟨pyLower (pyStrip x.data)⟩ := by
      unfold norm_doi
      rw [if_neg hx]
      simp only []
      rw [if_neg h]
    rw [hstep]
    by_cases hs : (⟨pyLower (pyStrip x.data)⟩ : String) = ""
    · rw [hs]; decide
    · unfold norm_doi
      rw [if_neg hs]
      simp only []
      rw [lower_strip_fixed, if_neg h]

/-- Witness for the amended C8 theorem at a concrete non-prefixed
input. -/
theorem norm_doi_idem_no_resolver_wit :
    (¬ resolverPre.isPrefixOf (pyLower (pyStrip " 10.1/AbC ".data))) ∧
      norm_doi (norm_doi " 10.1/AbC ") = norm_doi " 10.1/AbC " :=
  ⟨by decide, norm_doi_idem_no_resolver " 10.1/AbC " (by decide)⟩

/-- Claim C1 (code-bug evidence): for the document f.json the filename
override resolves to the candidate keyed K, yet the identifier chain
runs unconditionally afterwards and the cascade returns the by_doi
candidate with method doi — the override does not take priority,
contradicting the comment above the identifier branch and the spec. -/
theorem override_loses_to_doi_cex :
    resolveOverride [cslK, cslB] c1ov "f.json" = some (cslK, "override:id") ∧
      resolveMatchDoc [cslK, cslB] (some c1ov) (85/100) "f.json" c1doc =
        { cand := some cslB, method := "doi", conf := some 1 } := by decide

/-- Claim C3 counterexample: one merge call that overwrites only the
title appends two patches (the title patch and the provenance PDF
filename patch) against a changed-fields list of length one, and no
patch source names the matching method doi; sources are zotero:title
and zotero:csv. -/
theorem merge_patch_count_cex :
    (merge_fields c3doc c3csl (some c3ci) "doi" (some 1) "T").1.provenance.patches.length = 2 ∧
    (merge_fields c3doc c3csl (some c3ci) "doi" (some 1) "T").2 = ["title"] ∧
    (merge_fields c3doc c3csl (some c3ci) "doi" (some 1) "T").1.provenance.patches.map
        Patch.source = ["zotero:title", "zotero:csv"] := by decide

/-- Claim C5: in strict mode the run exits 2 whenever the unmatched
fraction of a non-empty corpus strictly exceeds one twentieth,
regardless of the conflict count; otherwise it exits 3 whenever the
conflict count is positive; and exits 0 when neither threshold is
violated. -/
theorem strict_gate_codes (total unmatched conflicts : Nat) :
    (0 < total → (1 : ℚ) / 20 < (unmatched : ℚ) / (total : ℚ) →
      strictExitCode true total unmatched conflicts = 2) ∧
    ((total = 0 ∨ (unmatched : ℚ) / (total : ℚ) ≤ 1 / 20) → 0 < conflicts →
      strictExitCode true total unmatched conflicts = 3) ∧
    ((total = 0 ∨ (unmatched : ℚ) / (total : ℚ) ≤ 1 / 20) → conflicts = 0 →
      strictExitCode true total unmatched conflicts = 0) := by
  unfold strictExitCode
  refine ⟨fun h1 h2 => ?_, fun h1 h2 => ?_, fun h1 h2 => ?_⟩
  · rw [if_pos (rfl : true = true), if_pos ⟨h1, h2⟩]
  · rw [if_pos (rfl : true = true), if_neg, if_pos h2]
    rintro ⟨ht, hr⟩
    rcases h1 with h0 | hle
    · omega
    · exact absurd hr (not_lt.mpr hle)
  · rw [if_pos (rfl : true = true), if_neg, if_neg]
    · omega
    · rintro ⟨ht, hr⟩
      rcases h1 with h0 | hle
      · omega
      · exact absurd hr (not_lt.mpr hle)

/-- Witness for C5 at concrete summaries, including the spec scenario
of 100 documents with 7 unmatched and no conflict. -/
theorem strict_gate_codes_wit :
    strictExitCode true 100 7 0 = 2 ∧ strictExitCode true 100 2 5 = 3 ∧
      strictExitCode true 100 2 0 = 0 :=
  ⟨(strict_gate_codes 100 7 0).1 (by norm_num) (by norm_num),
   (strict_gate_codes 100 2 5).2.1 (Or.inr (by norm_num)) (by norm_num),
   (strict_gate_codes 100 2 0).2.2 (Or.inr (by norm_num)) rfl⟩

/-- Claim C7 counterexample: with the missing_doi ceiling overridden to
a negative value, a summary with the metric absent (hence read as 0)
fails the gate, refuting that an absent gated metric never causes
failure. -/
theorem ci_gate_negative_ceiling_cex :
    ciGateExit negGates [] = 1 ∧ observed [] "missing_doi" = 0 ∧
      gateFailures negGates [] = ["missing_doi"] := by decide

/-- Claim C7 (amended): the gate exits non-zero iff some gated metric
strictly exceeds its ceiling, and the failure listing holds exactly the
violated metrics; a value equal to its ceiling never appears in the
listing, and an absent metric never does provided its ceiling is
non-negative. -/
theorem ci_gate_spec (g : GateLimits) (summary : List (String × Int)) :
    (ciGateExit g summary ≠ 0 ↔ ∃ k ∈ gateMetrics, gateLimit g k < observed summary k) ∧
    (∀ k ∈ gateMetrics, observed summary k = gateLimit g k → k ∉ gateFailures g summary) ∧
    ((∀ k ∈ gateMetrics, 0 ≤ gateLimit g k) →
      ∀ k ∈ gateMetrics, summary.lookup k = none → k ∉ gateFailures g summary) ∧
    (∀ k, k ∈ gateFailures g summary ↔ k ∈ gateMetrics ∧ gateLimit g k < observed summary k) := by
  have hmem : ∀ k, k ∈ gateFailures g summary ↔
      k ∈ gateMetrics ∧ gateLimit g k < observed summary k := by
    intro k
    unfold gateFailures
    rw [List.mem_filter]
    simp only [decide_eq_true_eq]
  refine ⟨?_, ?_, ?_, hmem⟩
  · unfold ciGateExit
    by_cases hf : gateFailures g summary = []
    · rw [if_pos hf]
      refine iff_of_false (by decide) ?_
      rintro ⟨k, hk, hlt⟩
      have : k ∈ gateFailures g summary := (hmem k).mpr ⟨hk, hlt⟩
      rw [hf] at this
      exact absurd this (List.not_mem_nil k)
    · rw [if_neg hf]
      refine iff_of_true (by decide) ?_
      obtain ⟨k, hk⟩ := List.exists_mem_of_ne_nil _ hf
      exact ⟨k, ((hmem k).mp hk).1, ((hmem k).mp hk).2⟩
  · intro k hk heq hmemf
    have := ((hmem k).mp hmemf).2
    rw [heq] at this
    exact lt_irrefl _ this
  · intro hnn k hk habs hmemf
    have hlt := ((hmem k).mp hmemf).2
    have hobs : observed summary k = 0 := by
      unfold observed
      rw [habs]
      rfl
    rw [hobs] at hlt
    exact absurd hlt (not_lt.mpr (hnn k hk))

/-- Witness for the amended C7 theorem: the spec scenario of a summary
with missing_doi 3 against ceiling 0 fails the gate, and an absent
metric with the default ceilings is never listed. -/
theorem ci_gate_spec_wit :
    ciGateExit zeroGates [("missing_doi", 3)] ≠ 0 ∧
      "missing_year" ∉ gateFailures zeroGates [("missing_doi", 3)] :=
  ⟨(ci_gate_spec zeroGates [("missing_doi", 3)]).1.mpr
      ⟨"missing_doi", by decide, by decide⟩,
   (ci_gate_spec zeroGates [("missing_doi", 3)]).2.2.1 (by decide) "missing_year"
      (by decide) (by decide)⟩

/-- Claim C10: a document the cascade does not match, with no filename
override entry and no by-title override fields, is passed through
unchanged (no metadata change, zero new patches) and written exactly
when neither strict mode nor dry-run is on. -/
theorem unmatched_passthrough (items : List CSLItem) (csvmap : List (String × CSVInfo))
    (ov : Option Overrides) (mf : ℚ) (strict dry : Bool) (fn : String) (obj : Doc)
    (now : String)
    (hm : (resolveMatchDoc items ov mf fn obj).cand = none)
    (hfn : ovEntryOf ov fn = none)
    (htf : ovTitleFieldsOf ov (docTitleStr obj.metadata)
      (norm_text (docTitleStr obj.metadata)) = none) :
    ∃ r, perDoc items csvmap ov mf strict dry fn obj now = Except.ok r ∧
      r.obj = obj ∧ (r.written = true ↔ (strict = false ∧ dry = false)) ∧
      r.status = "unmatched" ∧ r.changedOut = [] ∧
      r.obj.provenance.patches = obj.provenance.patches := by
  simp only [perDoc, hfn, htf, hm]
  refine ⟨_, rfl, rfl, ?_, rfl, rfl, rfl⟩
  cases strict <;> cases dry <;> simp

/-- Witness for C10 at a concrete unmatched document. -/
theorem unmatched_passthrough_wit :
    ∃ r, perDoc [] [] none (85 / 100) false false "x.json" c10doc "T" = Except.ok r ∧
      r.obj = c10doc ∧ r.written = true := by
  obtain ⟨r, he, hobj, hw, _, _, _⟩ :=
    unmatched_passthrough [] [] none (85 / 100) false false "x.json" c10doc "T"
      (by decide) (by decide) (by decide)
  exact ⟨r, he, hobj, hw.mpr ⟨rfl, rfl⟩⟩

/-- Claim C4 counterexample: a document carrying identifier 10.1/a is
matched (by exact title) to a candidate carrying no identifier; the
identifiers differ, yet no conflict is flagged, the counter stays 0 and
the document is written even in strict mode. -/
theorem conflict_not_flagged_cex :
    (perDoc [c4cand] [] none (85 / 100) true false "c.json" c4doc "T").toOption.map
        (fun r => (r.conflictFlag, r.conflictDelta, r.conflictCell, r.written, r.status)) =
      some (false, 0, "", true, "unchanged") ∧
    docDoiJson c4doc.metadata = some "10.1/a" ∧ c4cand.doi = none ∧
    (resolveMatchDoc [c4cand] none (85 / 100) "c.json" c4doc).cand = some c4cand := by
  decide

/-- Claim C4 (amended): for a matched document the conflict flag is set
exactly when the document and candidate identifiers are both non-blank
and differ; the counter and the report cell follow the flag; the merge
still runs (status changed or unchanged); and in strict non-dry-run
mode the document is written exactly when no conflict was flagged. -/
theorem conflict_flag_spec (items : List CSLItem) (csvmap : List (String × CSVInfo))
    (ov : Option Overrides) (mf : ℚ) (strict dry : Bool) (fn : String) (obj : Doc)
    (now : String) (m : CSLItem)
    (hm : (resolveMatchDoc items ov mf fn obj).cand = some m) :
    ∃ r, perDoc items csvmap ov mf strict dry fn obj now = Except.ok r ∧
      (r.conflictFlag = true ↔ ∃ d d2, docDoiJson obj.metadata = some d ∧ m.doi = some d2 ∧
        d ≠ "" ∧ d2 ≠ "" ∧ d ≠ d2) ∧
      r.conflictDelta = (if r.conflictFlag = true then 1 else 0) ∧
      r.conflictCell = (if r.conflictFlag = true then "yes" else "") ∧
      (r.status = "changed" ∨ r.status = "unchanged") ∧
      (strict = true → dry = false → (r.written = !r.conflictFlag)) := by
  simp only [perDoc, hm]
  refine ⟨_, rfl, ?_, ?_, ?_, ?_, ?_⟩
  · exact conflictCond_iff (docDoiJson obj.metadata) m.doi
  · by_cases hc : (truthyOS (docDoiJson obj.metadata) ∧ truthyOS m.doi ∧
        docDoiJson obj.metadata ≠ m.doi)
    · simp [hc]
    · simp [hc]
  · by_cases hc : (truthyOS (docDoiJson obj.metadata) ∧ truthyOS m.doi ∧
        docDoiJson obj.metadata ≠ m.doi)
    · simp [hc]
    · simp [hc]
  · by_cases hmc : (merge_fields
        { metadata := (match ovEntryOf ov fn with
            | some (.obj fields) => applyFnOverrides fields (obj.metadata, obj.provenance, [])
            | _ => (obj.metadata, obj.provenance, [])).1,
          provenance := (match ovEntryOf ov fn with
            | some (.obj fields) => applyFnOverrides fields (obj.metadata, obj.provenance, [])
            | _ => (obj.metadata, obj.provenance, [])).2.1 }
        m (csvInfoFor csvmap m) (resolveMatchDoc items ov mf fn obj).method
        (resolveMatchDoc items ov mf fn obj).conf now).2 = []
    · right
      simp [hmc]
    · left
      simp [hmc]
  · intro hs hd
    subst hs
    subst hd
    by_cases hc : (truthyOS (docDoiJson obj.metadata) ∧ truthyOS m.doi ∧
        docDoiJson obj.metadata ≠ m.doi)
    · simp [hc]
    · simp [hc]

/-- Witness for the amended C4 theorem: a strict-mode run on a document
whose identifier 10.1/a differs from the matched candidate identifier
10.1/b flags the conflict and skips the write. -/
theorem conflict_flag_spec_wit :
    ∃ r, perDoc [cslB] [] none (85 / 100) true false "w.json" c4wdoc "T" = Except.ok r ∧
      r.conflictFlag = true ∧ r.written = false := by
  obtain ⟨r, he, hiff, _, _, _, hw⟩ :=
    conflict_flag_spec [cslB] [] none (85 / 100) true false "w.json" c4wdoc "T" cslB
      (by decide)
  have hf : r.conflictFlag = true :=
    hiff.mpr ⟨"10.1/a", "10.1/b", by decide, by decide, by decide, by decide, by decide⟩
  refine ⟨r, he, hf, ?_⟩
  rw [hw rfl rfl, hf]
  rfl

/-- Claim C9 counterexample: the document has a by-title override
supplying journal J and the cascade also resolves a candidate; the
override fields are not applied (journal stays absent and no manual
patch is logged), so they do not bypass the cascade. -/
theorem title_override_skipped_when_matched_cex :
    ovTitleFieldsOf (some c9ov) (docTitleStr c9doc.metadata)
        (norm_text (docTitleStr c9doc.metadata)) = some [("journal", .str "J")] ∧
    (perDoc [cslB] [] (some c9ov) (85 / 100) false false "c9.json" c9doc "T").toOption.map
        (fun r => (r.obj.metadata.journal,
          r.obj.provenance.patches.filter (fun p => p.source = "manual_patch"),
          r.methodOut)) = some (none, [], "doi") := by
  decide

/-- Claim C9 (amended): by-title override fields are applied only when
the cascade resolves no candidate; in that case a supplied journal
value differing from the current one is set directly, logged as a
manual patch noted override:by_title, recorded in the changed fields,
and the document is reported as manual_override and written when not a
dry run. -/
theorem title_override_applied_when_unmatched (items : List CSLItem)
    (csvmap : List (String × CSVInfo)) (o : Overrides) (mf : ℚ) (strict dry : Bool)
    (fn : String) (obj : Doc) (now : String) (fs : List (String × OvVal)) (j : String)
    (hm : (resolveMatchDoc items (some o) mf fn obj).cand = none)
    (hfn : ovEntryOf (some o) fn = none)
    (htf : ovTitleFieldsOf (some o) (docTitleStr obj.metadata)
      (norm_text (docTitleStr obj.metadata)) = some fs)
    (hne : fs ≠ [])
    (hj : fs.lookup "journal" = some (.str j))
    (hy : fs.lookup "year" = none)
    (hold : obj.metadata.journal ≠ some (.str j)) :
    ∃ r, perDoc items csvmap (some o) mf strict dry fn obj now = Except.ok r ∧
      r.obj.metadata.journal = some (.str j) ∧
      "journal" ∈ r.changedOut ∧
      mkManualPatch "metadata.journal" obj.metadata.journal (.str j) "override:by_title" ∈
        r.obj.provenance.patches ∧
      r.status = "manual_override" ∧
      (dry = false → r.written = true) := by
  obtain ⟨st2, happ, hjr, hpatch, hch⟩ :=
    applyTitleFields_journal fs (obj.metadata, obj.provenance, []) j hj hy hold
  simp only [perDoc, hm, hfn, htf]
  rw [if_pos hne, happ]
  refine ⟨_, rfl, hjr, hch, hpatch, ?_, ?_⟩
  · have h2 : st2.2.2 ≠ [] := List.ne_nil_of_mem hch
    simp [h2]
  · intro hd
    subst hd
    have h2 : st2.2.2 ≠ [] := List.ne_nil_of_mem hch
    simp [h2]

/-- Witness for the amended C9 theorem: an unmatched document with a
by-title override supplying journal J receives the field. -/
theorem title_override_applied_when_unmatched_wit :
    ∃ r, perDoc [] [] (some c9ov) (85 / 100) false false "x.json" c9wdoc "T" =
        Except.ok r ∧
      r.obj.metadata.journal = some (.str "J") ∧ r.status = "manual_override" := by
  obtain ⟨r, he, hj2, hch, hp, hst, hw⟩ :=
    title_override_applied_when_unmatched [] [] c9ov (85 / 100) false false "x.json"
      c9wdoc "T" [("journal", .str "J")] "J" (by decide) (by decide) (by decide)
      (by decide) (by decide) (by decide) (by decide)
  exact ⟨r, he, hj2, hst⟩

/-- Claim C6: blank-identifier files join no duplicate group; every
reported group has at least two member paths, all sharing the same
non-blank normalised identifier; the kept member of a group is its
lexicographically smallest path and exactly the other members are the
removed ones; and both the kept and the removed members are invariant
under reordering of the corpus. -/
theorem dedupe_by_doi_spec (corpus corpus2 : List CorpusFile)
    (hnd : (corpus.map CorpusFile.path).Nodup) :
    (∀ f ∈ corpus, norm_doi? f.doi = "" → ∀ d, f.path ∉ doiGroup corpus d) ∧
    (∀ d, isDupGroup corpus d = true →
      2 ≤ (doiGroup corpus d).length ∧
      ∀ p ∈ doiGroup corpus d, ∃ f ∈ corpus, f.path = p ∧ norm_doi? f.doi = d ∧ d ≠ "") ∧
    (∀ d p, keptMember corpus d = some p →
      p ∈ doiGroup corpus d ∧ (∀ q ∈ doiGroup corpus d, p ≤ q) ∧
      p ∉ removedMembers corpus d ∧
      (p :: removedMembers corpus d).Perm (doiGroup corpus d)) ∧
    (corpus.Perm corpus2 → ∀ d,
      keptMember corpus d = keptMember corpus2 d ∧
      removedMembers corpus d = removedMembers corpus2 d) := by
  refine ⟨?_, ?_, ?_, ?_⟩
  · intro f hf hblank d hmem
    unfold doiGroup at hmem
    rw [List.mem_map] at hmem
    obtain ⟨f2, hf2, hpath⟩ := hmem
    rw [List.mem_filter] at hf2
    obtain ⟨hf2c, hcond⟩ := hf2
    rw [decide_eq_true_eq] at hcond
    have heq : f2 = f := List.inj_on_of_nodup_map hnd hf2c hf hpath
    subst heq
    rw [hblank] at hcond
    exact hcond.2 hcond.1.symm
  · intro d hdup
    constructor
    · unfold isDupGroup at hdup
      rw [decide_eq_true_eq] at hdup
      omega
    · intro p hp
      unfold doiGroup at hp
      rw [List.mem_map] at hp
      obtain ⟨f, hf, hpath⟩ := hp
      rw [List.mem_filter] at hf
      obtain ⟨hfc, hcond⟩ := hf
      rw [decide_eq_true_eq] at hcond
      exact ⟨f, hfc, hpath, hcond.1, hcond.2⟩
  · intro d p hk
    unfold keptMember at hk
    have hsp : ((doiGroup corpus d).mergeSort (fun a b => a ≤ b)).Perm (doiGroup corpus d) :=
      mergeSortLE_perm _
    have hsort := mergeSortLE_sorted (doiGroup corpus d)
    cases hs : (doiGroup corpus d).mergeSort (fun a b => a ≤ b) with
    | nil =>
      rw [hs] at hk
      exact absurd hk (by simp)
    | cons a t =>
      rw [hs] at hk
      simp only [List.head?_cons, Option.some.injEq] at hk
      subst hk
      rw [hs] at hsp hsort
      rw [List.pairwise_cons] at hsort
      have hrem : removedMembers corpus d = t := by
        unfold removedMembers
        rw [hs]
        rfl
      refine ⟨?_, ?_, ?_, ?_⟩
      · exact hsp.mem_iff.mp (List.mem_cons_self _ _)
      · intro q hq
        have hq2 : q ∈ a :: t := hsp.mem_iff.mpr hq
        rcases List.mem_cons.mp hq2 with h | h
        · rw [h]
        · exact hsort.1 q h
      · rw [hrem]
        have hnodup : (a :: t).Nodup := hsp.nodup_iff.mpr (doiGroup_nodup corpus d hnd)
        exact (List.nodup_cons.mp hnodup).1
      · rw [hrem]
        exact hsp
  · intro hp d
    have hgp : (doiGroup corpus d).Perm (doiGroup corpus2 d) :=
      List.Perm.map _ (List.Perm.filter _ hp)
    have hs : (doiGroup corpus d).mergeSort (fun a b => a ≤ b) =
        (doiGroup corpus2 d).mergeSort (fun a b => a ≤ b) := by
      refine List.eq_of_perm_of_sorted
        ((mergeSortLE_perm _).trans (hgp.trans (mergeSortLE_perm _).symm))
        (mergeSortLE_sorted _) (mergeSortLE_sorted _)
    constructor
    · unfold keptMember
      rw [hs]
    · unfold removedMembers
      rw [hs]

/-- Witness for C6: in the concrete corpus the two files sharing
identifier 10.9/xyz form one group and the alphabetically earlier path
a.json is the kept member, absent from the removed ones. -/
theorem dedupe_by_doi_spec_wit :
    keptMember c6corpus "10.9/xyz" = some "a.json" ∧
      "a.json" ∉ removedMembers c6corpus "10.9/xyz" := by
  have hg : doiGroup c6corpus "10.9/xyz" = ["b.json", "a.json"] := by decide
  have hex : ∃ p, keptMember c6corpus "10.9/xyz" = some p := by
    unfold keptMember
    cases hs : (doiGroup c6corpus "10.9/xyz").mergeSort (fun a b => a ≤ b) with
    | nil =>
      exfalso
      have hperm := mergeSortLE_perm (doiGroup c6corpus "10.9/xyz")
      rw [hs, hg] at hperm
      have hlen := hperm.length_eq
      simp at hlen
    | cons a t => exact ⟨a, rfl⟩
  obtain ⟨p, hp⟩ := hex
  have h := (dedupe_by_doi_spec c6corpus c6corpus (by decide)).2.2.1 "10.9/xyz" p hp
  have hpmem := h.1
  have hle := h.2.1 "a.json" (by rw [hg]; decide)
  rw [hg] at hpmem
  have hab : ("a.json" : String) < "b.json" := by
    rw [String.lt_iff_toList_lt]
    decide
  have hpa : p = "a.json" := by
    rcases List.mem_cons.mp hpmem with h2 | h2
    · rw [h2] at hle
      exact absurd hle (not_le.mpr hab)
    · simpa using h2
  subst hpa
  exact ⟨hp, h.2.2.1⟩

set_option maxHeartbeats 3200000 in
/-- Claim C3 (amended): in one merge call the appended patches are the
previous log, then one patch per changed metadata field (op set, source
zotero:field naming the source system and field rather than the
matching method, path metadata.field, previous value recorded), then
the optional provenance PDF-filename patch; so the appended patch count
is the changed-fields count plus the PDF patch count.  The matching
method is recorded in provenance.zotero.match_method.  No metadata
field changes without its name entering the changed list, and the year
field is never touched. -/
theorem merge_patch_accounting (obj : Doc) (csl : CSLItem) (ci : Option CSVInfo)
    (m : String) (conf : Option ℚ) (now : String) :
    (∃ fp,
      (merge_fields obj csl ci m conf now).1.provenance.patches =
        obj.provenance.patches ++ fp ++ (pdfStep obj.provenance.orig_pdf_filename ci).2 ∧
      List.Forall₂ (fun (p : Patch) (k : String) =>
          p.op = "set" ∧ p.source = "zotero:" ++ k ∧ p.path = "metadata." ++ k ∧
          p.fromv = mdGet obj.metadata k)
        fp (merge_fields obj csl ci m conf now).2) ∧
    (merge_fields obj csl ci m conf now).1.provenance.patches.length =
      obj.provenance.patches.length + (merge_fields obj csl ci m conf now).2.length +
        (pdfStep obj.provenance.orig_pdf_filename ci).2.length ∧
    (merge_fields obj csl ci m conf now).1.provenance.zotero.match_method = some m ∧
    (merge_fields obj csl ci m conf now).1.metadata.year = obj.metadata.year ∧
    ((merge_fields obj csl ci m conf now).1.metadata.title ≠ obj.metadata.title →
      "title" ∈ (merge_fields obj csl ci m conf now).2) ∧
    ((merge_fields obj csl ci m conf now).1.metadata.year_norm ≠ obj.metadata.year_norm →
      "year_norm" ∈ (merge_fields obj csl ci m conf now).2) ∧
    ((merge_fields obj csl ci m conf now).1.metadata.authors ≠ obj.metadata.authors →
      "authors" ∈ (merge_fields obj csl ci m conf now).2) ∧
    ((merge_fields obj csl ci m conf now).1.metadata.doi ≠ obj.metadata.doi →
      "doi" ∈ (merge_fields obj csl ci m conf now).2) ∧
    ((merge_fields obj csl ci m conf now).1.metadata.journal ≠ obj.metadata.journal →
      "journal" ∈ (merge_fields obj csl ci m conf now).2) ∧
    ((merge_fields obj csl ci m conf now).1.metadata.abstract ≠ obj.metadata.abstract →
      "abstract" ∈ (merge_fields obj csl ci m conf now).2) ∧
    ((merge_fields obj csl ci m conf now).1.metadata.volume ≠ obj.metadata.volume →
      "volume" ∈ (merge_fields obj csl ci m conf now).2) ∧
    ((merge_fields obj csl ci m conf now).1.metadata.issue ≠ obj.metadata.issue →
      "issue" ∈ (merge_fields obj csl ci m conf now).2) ∧
    ((merge_fields obj csl ci m conf now).1.metadata.pages ≠ obj.metadata.pages →
      "pages" ∈ (merge_fields obj csl ci m conf now).2) ∧
    ((merge_fields obj csl ci m conf now).1.metadata.issn ≠ obj.metadata.issn →
      "issn" ∈ (merge_fields obj csl ci m conf now).2) ∧
    ((merge_fields obj csl ci m conf now).1.metadata.url ≠ obj.metadata.url →
      "url" ∈ (merge_fields obj csl ci m conf now).2) := by
  have hfa : List.Forall₂ (fun (p : Patch) (k : String) =>
      p.op = "set" ∧ p.source = "zotero:" ++ k ∧ p.path = "metadata." ++ k ∧
      p.fromv = mdGet obj.metadata k)
      (chPatch (mergeTitle obj.metadata.title csl).2 "metadata.title" obj.metadata.title
          "zotero:title" ++
        chPatch (mergeYearNorm obj.metadata.year_norm csl).2 "metadata.year_norm"
          obj.metadata.year_norm "zotero:year_norm" ++
        chPatch (mergeAuthors obj.metadata.authors csl).2 "metadata.authors"
          obj.metadata.authors "zotero:authors" ++
        chPatch (mergeIfBlank obj.metadata.doi csl.doi).2 "metadata.doi" obj.metadata.doi
          "zotero:doi" ++
        chPatch (mergeIfBlank obj.metadata.journal csl.container_title).2 "metadata.journal"
          obj.metadata.journal "zotero:journal" ++
        chPatch (mergeAbstract obj.metadata.abstract csl).2 "metadata.abstract"
          obj.metadata.abstract "zotero:abstract" ++
        chPatch (mergeIfBlank obj.metadata.volume csl.volume).2 "metadata.volume"
          obj.metadata.volume "zotero:volume" ++
        chPatch (mergeIfBlank obj.metadata.issue csl.issue).2 "metadata.issue"
          obj.metadata.issue "zotero:issue" ++
        chPatch (mergeIfBlank obj.metadata.pages csl.pages).2 "metadata.pages"
          obj.metadata.pages "zotero:pages" ++
        chPatch (mergeIfBlank obj.metadata.issn csl.issn).2 "metadata.issn"
          obj.metadata.issn "zotero:issn" ++
        chPatch (mergeIfBlank obj.metadata.url csl.url).2 "metadata.url" obj.metadata.url
          "zotero:url")
      (chEntry (mergeTitle obj.metadata.title csl).2 "title" ++
        chEntry (mergeYearNorm obj.metadata.year_norm csl).2 "year_norm" ++
        chEntry (mergeAuthors obj.metadata.authors csl).2 "authors" ++
        chEntry (mergeIfBlank obj.metadata.doi csl.doi).2 "doi" ++
        chEntry (mergeIfBlank obj.metadata.journal csl.container_title).2 "journal" ++
        chEntry (mergeAbstract obj.metadata.abstract csl).2 "abstract" ++
        chEntry (mergeIfBlank obj.metadata.volume csl.volume).2 "volume" ++
        chEntry (mergeIfBlank obj.metadata.issue csl.issue).2 "issue" ++
        chEntry (mergeIfBlank obj.metadata.pages csl.pages).2 "pages" ++
        chEntry (mergeIfBlank obj.metadata.issn csl.issn).2 "issn" ++
        chEntry (mergeIfBlank obj.metadata.url csl.url).2 "url") := by
    refine List.rel_append (List.rel_append (List.rel_append (List.rel_append
      (List.rel_append (List.rel_append (List.rel_append (List.rel_append
        (List.rel_append (List.rel_append ?_ ?_) ?_) ?_) ?_) ?_) ?_) ?_) ?_) ?_) ?_
    · exact forall2_chSeg _ "title" _ _ _ _ rfl rfl rfl
    · exact forall2_chSeg _ "year_norm" _ _ _ _ rfl rfl rfl
    · exact forall2_chSeg _ "authors" _ _ _ _ rfl rfl rfl
    · exact forall2_chSeg _ "doi" _ _ _ _ rfl rfl rfl
    · exact forall2_chSeg _ "journal" _ _ _ _ rfl rfl rfl
    · exact forall2_chSeg _ "abstract" _ _ _ _ rfl rfl rfl
    · exact forall2_chSeg _ "volume" _ _ _ _ rfl rfl rfl
    · exact forall2_chSeg _ "issue" _ _ _ _ rfl rfl rfl
    · exact forall2_chSeg _ "pages" _ _ _ _ rfl rfl rfl
    · exact forall2_chSeg _ "issn" _ _ _ _ rfl rfl rfl
    · exact forall2_chSeg _ "url" _ _ _ _ rfl rfl rfl
  rw [merge_fields_eq]
  refine ⟨⟨_, rfl, hfa⟩, ?_, rfl, rfl, ?_, ?_, ?_, ?_, ?_, ?_, ?_, ?_, ?_, ?_, ?_⟩
  · have hlen := hfa.length_eq
    simp only [List.length_append] at hlen ⊢
    omega
  · intro h
    by_cases h2 : (mergeTitle obj.metadata.title csl).2 = none
    · exact absurd (mergeTitle_none _ _ h2) h
    · obtain ⟨v, hv⟩ := Option.ne_none_iff_exists.mp h2
      simp only [chEntry, ← hv, List.mem_append, List.mem_singleton]
      tauto
  · intro h
    by_cases h2 : (mergeYearNorm obj.metadata.year_norm csl).2 = none
    · exact absurd (mergeYearNorm_none _ _ h2) h
    · obtain ⟨v, hv⟩ := Option.ne_none_iff_exists.mp h2
      simp only [chEntry, ← hv, List.mem_append, List.mem_singleton]
      tauto
  · intro h
    by_cases h2 : (mergeAuthors obj.metadata.authors csl).2 = none
    · exact absurd (mergeAuthors_none _ _ h2) h
    · obtain ⟨v, hv⟩ := Option.ne_none_iff_exists.mp h2
      simp only [chEntry, ← hv, List.mem_append, List.mem_singleton]
      tauto
  · intro h
    by_cases h2 : (mergeIfBlank obj.metadata.doi csl.doi).2 = none
    · exact absurd (mergeIfBlank_none _ _ h2) h
    · obtain ⟨v, hv⟩ := Option.ne_none_iff_exists.mp h2
      simp only [chEntry, ← hv, List.mem_append, List.mem_singleton]
      tauto
  · intro h
    by_cases h2 : (mergeIfBlank obj.metadata.journal csl.container_title).2 = none
    · exact absurd (mergeIfBlank_none _ _ h2) h
    · obtain ⟨v, hv⟩ := Option.ne_none_iff_exists.mp h2
      simp only [chEntry, ← hv, List.mem_append, List.mem_singleton]
      tauto
  · intro h
    by_cases h2 : (mergeAbstract obj.metadata.abstract csl).2 = none
    · exact absurd (mergeAbstract_none _ _ h2) h
    · obtain ⟨v, hv⟩ := Option.ne_none_iff_exists.mp h2
      simp only [chEntry, ← hv, List.mem_append, List.mem_singleton]
      tauto
  · intro h
    by_cases h2 : (mergeIfBlank obj.metadata.volume csl.volume).2 = none
    · exact absurd (mergeIfBlank_none _ _ h2) h
    · obtain ⟨v, hv⟩ := Option.ne_none_iff_exists.mp h2
      simp only [chEntry, ← hv, List.mem_append, List.mem_singleton]
      tauto
  · intro h
    by_cases h2 : (mergeIfBlank obj.metadata.issue csl.issue).2 = none
    · exact absurd (mergeIfBlank_none _ _ h2) h
    · obtain ⟨v, hv⟩ := Option.ne_none_iff_exists.mp h2
      simp only [chEntry, ← hv, List.mem_append, List.mem_singleton]
      tauto
  · intro h
    by_cases h2 : (mergeIfBlank obj.metadata.pages csl.pages).2 = none
    · exact absurd (mergeIfBlank_none _ _ h2) h
    · obtain ⟨v, hv⟩ := Option.ne_none_iff_exists.mp h2
      simp only [chEntry, ← hv, List.mem_append, List.mem_singleton]
      tauto
  · intro h
    by_cases h2 : (mergeIfBlank obj.metadata.issn csl.issn).2 = none
    · exact absurd (mergeIfBlank_none _ _ h2) h
    · obtain ⟨v, hv⟩ := Option.ne_none_iff_exists.mp h2
      simp only [chEntry, ← hv, List.mem_append, List.mem_singleton]
      tauto
  · intro h
    by_cases h2 : (mergeIfBlank obj.metadata.url csl.url).2 = none
    · exact absurd (mergeIfBlank_none _ _ h2) h
    · obtain ⟨v, hv⟩ := Option.ne_none_iff_exists.mp h2
      simp only [chEntry, ← hv, List.mem_append, List.mem_singleton]
      tauto

/-- Witness for the amended C3 theorem: the concrete merge call of the
counterexample satisfies the accounting, and its title overwrite is
recorded in the changed list. -/
theorem merge_patch_accounting_wit :
    (merge_fields c3doc c3csl (some c3ci) "doi" (some 1) "T").1.provenance.patches.length =
        c3doc.provenance.patches.length +
          (merge_fields c3doc c3csl (some c3ci) "doi" (some 1) "T").2.length +
          (pdfStep c3doc.provenance.orig_pdf_filename (some c3ci)).2.length ∧
      "title" ∈ (merge_fields c3doc c3csl (some c3ci) "doi" (some 1) "T").2 :=
  ⟨(merge_patch_accounting c3doc c3csl (some c3ci) "doi" (some 1) "T").2.1,
   (merge_patch_accounting c3doc c3csl (some c3ci) "doi" (some 1) "T").2.2.2.2.1
     (by decide)⟩

end Medparse
